import Mathlib

/-!
# registroDeComponentes.cpp : record store over a flat text file

Shallow embedding of `src/registroDeComponentes.cpp`.

* A `std::string` is a `Texto` (list of characters).
* `float` is a type parameter `F`; what the C++ library does with a `float`
  (`operator<<`, `std::stof`, `operator>>`, `operator==`) is a field of
  `BibliotecaFloat F`.
* The file system is a `Sistema`: the content of every path, and whether the
  path can be opened for reading and for writing.
* `std::cout` is a list of `Emision`s, one per `<<`.
* `std::cin` is a `Cin`: the characters left and the flags `eofbit`, `failbit`.
  A loop that waits for input is a function with a bound on its turns; `none`
  stands for a call that never returns.
* `main` ends with a `FinDeProceso`: a `return`, or `std::terminate` on an
  exception of `std::stof` that nothing catches.
-/

namespace RegistroDeComponentes

/-- Value of a `std::string`. -/
abbrev Texto := List Char

/-- The two exceptions `std::stof` throws. -/
inductive ErrorStof where
  | invalid_argument
  | out_of_range
  deriving DecidableEq, Repr

/-- What the C++ standard library does with a `float`. `fmt` is
`operator<<(std::ostream&, float)` with the default format, `stof` is
`std::stof`, `leerFloat` is the `num_get` stage of `operator>>(std::istream&, float&)`
(it returns the value, if the characters form one, and the characters left in
the buffer), `igual` is `operator==` and `cero` is `0.00`. -/
structure BibliotecaFloat (F : Type) where
  cero : F
  igual : F → F → Bool
  fmt : F → Texto
  stof : Texto → Except ErrorStof F
  leerFloat : List Char → Option F × List Char
  fmt_sin_salto : ∀ v, '\n' ∉ fmt v
  leerFloat_sufijo : ∀ b, (leerFloat b).2 <:+ b

/-- The `struct componente`. -/
structure componente (F : Type) where
  nombreDelComponente : Texto
  tipoDeComponente : Texto
  valorNominal : F
  tolerancia : F
  voltajeDeTrabajo : F
  estado : Texto
  deriving DecidableEq, Repr

/-- The value-initialised `componente()`: empty strings and `0.00`. -/
def componente.nuevo {F : Type} (L : BibliotecaFloat F) : componente F :=
  ⟨[], [], L.cero, L.cero, L.cero, []⟩

/-- One `<<` on `std::cout`: a string literal of the program, a `std::string`
value or a `float` value. -/
inductive Emision (F : Type) where
  | literal (s : String)
  | cadena (t : Texto)
  | flotante (v : F)
  deriving DecidableEq, Repr

/-- The file system: content of each existing path, and whether a path can be
opened for reading (`std::ifstream`) and for writing (`std::ofstream`). -/
structure Sistema where
  contenido : Texto → Option Texto
  lectura : Texto → Bool
  escritura : Texto → Bool

/-- The text an `std::ifstream` on `p` reads, `none` when `is_open()` is false. -/
def Sistema.abrirLectura (fs : Sistema) (p : Texto) : Option Texto :=
  if fs.lectura p then fs.contenido p else none

/-- The file system after an `std::ofstream` on `p` was closed with content `t`. -/
def Sistema.escribir (fs : Sistema) (p : Texto) (t : Texto) : Sistema :=
  ⟨fun q => if q = p then some t else fs.contenido q, fs.lectura, fs.escritura⟩

/-- The text at the end of which `std::ios::app` writes: the content of the
file, or nothing for a file that is created. -/
def Sistema.previo (fs : Sistema) (p : Texto) : Texto :=
  (fs.contenido p).getD []

/-- The line `-----` without its line break. -/
def separador : Texto := ['-', '-', '-', '-', '-']

/-- `guardarEnArchivo`: `std::ofstream archivo(nombreArchivo)` truncates, the
seven `<<` follow. -/
def guardarEnArchivo {F : Type} (L : BibliotecaFloat F) (x : componente F)
    (nombreArchivo : Texto) (fs : Sistema) : Sistema × List (Emision F) :=
  if fs.escritura nombreArchivo then
    let archivo : Texto := []
    let archivo := archivo ++ x.nombreDelComponente ++ ['\n']
    let archivo := archivo ++ x.tipoDeComponente ++ ['\n']
    let archivo := archivo ++ L.fmt x.valorNominal ++ ['\n']
    let archivo := archivo ++ L.fmt x.tolerancia ++ ['\n']
    let archivo := archivo ++ L.fmt x.voltajeDeTrabajo ++ ['\n']
    let archivo := archivo ++ x.estado ++ ['\n']
    let archivo := archivo ++ (separador ++ ['\n'])
    (fs.escribir nombreArchivo archivo, [])
  else
    (fs, [.literal "No se pudo abrir el archivo para guardar \n"])

/-- `continuarConArchivo`: `std::ofstream archivo(nombreArchivo, std::ios::app)`
writes after the existing content, the seven `<<` follow. -/
def continuarConArchivo {F : Type} (L : BibliotecaFloat F) (x : componente F)
    (nombreArchivo : Texto) (fs : Sistema) : Sistema × List (Emision F) :=
  if fs.escritura nombreArchivo then
    let archivo : Texto := fs.previo nombreArchivo
    let archivo := archivo ++ x.nombreDelComponente ++ ['\n']
    let archivo := archivo ++ x.tipoDeComponente ++ ['\n']
    let archivo := archivo ++ L.fmt x.valorNominal ++ ['\n']
    let archivo := archivo ++ L.fmt x.tolerancia ++ ['\n']
    let archivo := archivo ++ L.fmt x.voltajeDeTrabajo ++ ['\n']
    let archivo := archivo ++ x.estado ++ ['\n']
    let archivo := archivo ++ (separador ++ ['\n'])
    (fs.escribir nombreArchivo archivo, [])
  else
    (fs, [.literal "No se pudo abrir el archivo para guardar \n"])

/-- The lines `while (std::getline(archivo, linea))` reads from a text, in
order: `acc` holds, reversed, the characters of the current line. A last line
without line break is read when it has a character. -/
def lineasDesde : List Char → List Char → List Texto
  | [], acc => if acc = [] then [] else [acc.reverse]
  | c :: cs, acc => if c = '\n' then acc.reverse :: lineasDesde cs [] else lineasDesde cs (c :: acc)

/-- The successive results of `std::getline` on a file of content `t`. -/
def lineas (t : Texto) : List Texto := lineasDesde t []

/-- What a call of `cargarDesdeArchivo` leaves: the vector `registros`, the
exception of `std::stof` that ended the call (if one did) and what was printed. -/
structure Carga (F : Type) where
  registros : List (componente F)
  error : Option ErrorStof
  salida : List (Emision F)
  deriving DecidableEq, Repr

/-- The `while (std::getline(archivo, linea))` loop of `cargarDesdeArchivo` over
the lines left to read, from the state `registros`, `temp`, `contador`. The
result is `registros` at the end and the exception thrown, if any. -/
def cargarLineas {F : Type} (L : BibliotecaFloat F) :
    List Texto → List (componente F) → componente F → Int →
      List (componente F) × Option ErrorStof
  | [], registros, _, _ => (registros, none)
  | linea :: resto, registros, temp, contador =>
    if contador = 0 then
      cargarLineas L resto registros { temp with nombreDelComponente := linea } (contador + 1)
    else if contador = 1 then
      cargarLineas L resto registros { temp with tipoDeComponente := linea } (contador + 1)
    else if contador = 2 then
      match L.stof linea with
      | .ok v => cargarLineas L resto registros { temp with valorNominal := v } (contador + 1)
      | .error e => (registros, some e)
    else if contador = 3 then
      match L.stof linea with
      | .ok v => cargarLineas L resto registros { temp with tolerancia := v } (contador + 1)
      | .error e => (registros, some e)
    else if contador = 4 then
      match L.stof linea with
      | .ok v => cargarLineas L resto registros { temp with voltajeDeTrabajo := v } (contador + 1)
      | .error e => (registros, some e)
    else if contador = 5 then
      cargarLineas L resto registros { temp with estado := linea } (contador + 1)
    else if contador = 6 then
      if linea = separador then
        cargarLineas L resto (registros ++ [temp]) (componente.nuevo L) (-1 + 1)
      else
        cargarLineas L resto registros temp (contador + 1)
    else
      cargarLineas L resto registros temp (contador + 1)

/-- `cargarDesdeArchivo`: early return when the file does not open, otherwise
`registros.clear()` and the reading loop. -/
def cargarDesdeArchivo {F : Type} (L : BibliotecaFloat F) (registros : List (componente F))
    (nombreArchivo : Texto) (fs : Sistema) : Carga F :=
  match fs.abrirLectura nombreArchivo with
  | none => ⟨registros, none, [.literal "No se pudo abrir el archivo.\n"]⟩
  | some texto =>
    let r := cargarLineas L (lineas texto) [] (componente.nuevo L) 0
    ⟨r.1, r.2, []⟩

/-! ## `std::cin` -/

/-- State of `std::cin`: the characters not read yet (the end of the list is
the end of the input) and the flags `eofbit` and `failbit`. -/
structure Cin where
  buf : List Char
  eof : Bool
  fail : Bool
  deriving DecidableEq, Repr

/-- `std::cin.good()`. -/
def Cin.good (c : Cin) : Bool := !c.eof && !c.fail

/-- `std::cin.clear()`. -/
def Cin.clear (c : Cin) : Cin := ⟨c.buf, false, false⟩

/-- `std::getline(std::cin, s)`: the new value of `s` and the new state. On a
stream that is not good, `failbit` is set and `s` is left alone. Otherwise `s`
receives the characters before the first line break, which is consumed; the end
of the input sets `eofbit`, and `failbit` too when nothing at all was read. -/
def getline (c : Cin) (s : Texto) : Texto × Cin :=
  if c.good then
    match c.buf with
    | [] => ([], ⟨[], true, true⟩)
    | b =>
      match b.dropWhile (fun ch => ch != '\n') with
      | [] => (b.takeWhile (fun ch => ch != '\n'), ⟨[], true, false⟩)
      | _ :: r => (b.takeWhile (fun ch => ch != '\n'), ⟨r, false, false⟩)
  else (s, ⟨c.buf, c.eof, true⟩)

/-- `std::cin.ignore()`: one character is dropped. -/
def Cin.ignore (c : Cin) : Cin :=
  if c.good then
    match c.buf with
    | [] => ⟨[], true, false⟩
    | _ :: r => ⟨r, false, false⟩
  else ⟨c.buf, c.eof, true⟩

/-- The buffer after at most `n` characters were dropped, stopping after a
line break, and whether the end of the input was met. -/
def descartarLinea : List Char → Nat → List Char × Bool
  | [], n => if n = 0 then ([], false) else ([], true)
  | ch :: r, n =>
    if n = 0 then (ch :: r, false)
    else if ch = '\n' then (r, false)
    else descartarLinea r (n - 1)

/-- `std::cin.ignore(n, '\n')`. -/
def Cin.ignoreHasta (c : Cin) (n : Nat) : Cin :=
  if c.good then
    let r := descartarLinea c.buf n
    ⟨r.1, r.2, false⟩
  else ⟨c.buf, c.eof, true⟩

/-- `std::numeric_limits<std::streamsize>::max()`. -/
def streamsizeMax : Nat := 9223372036854775807

/-- `isspace` in the "C" locale, what `operator>>` skips first. -/
def esEspacio (ch : Char) : Bool :=
  ch = ' ' || ch = '\t' || ch = '\n' || ch = '\x0b' || ch = '\x0c' || ch = '\r'

/-- `std::cin >> valor` for a `float valor`: the new value of the variable and
the new state. A stream that is not good, or that ends while white space is
skipped, sets `failbit` and leaves `valor` alone; characters that form no
number set `failbit` and store zero. -/
def extraerFloat {F : Type} (L : BibliotecaFloat F) (c : Cin) (valor : F) : F × Cin :=
  if c.good then
    match c.buf.dropWhile esEspacio with
    | [] => (valor, ⟨[], true, true⟩)
    | b =>
      match L.leerFloat b with
      | (some v, r) => (v, ⟨r, r.isEmpty, false⟩)
      | (none, r) => (L.cero, ⟨r, r.isEmpty, true⟩)
  else (valor, ⟨c.buf, c.eof, true⟩)

/-- Value of a list of decimal digits. -/
def valorDigitos (ds : List Char) : Nat :=
  ds.foldl (fun a d => 10 * a + (d.toNat - 48)) 0

/-- The `num_get` stage of `std::cin >> n` for an `int n`: an optional sign and
the decimal digits that follow are consumed. The result is the value stored,
whether the extraction succeeded, and the characters left. Without a digit
zero is stored; a value out of the range of `int` stores the nearest bound. -/
def leerInt (b : List Char) : Int × Bool × List Char :=
  let signo : Bool × List Char :=
    match b with
    | '-' :: r => (true, r)
    | '+' :: r => (false, r)
    | _ => (false, b)
  let ds := signo.2.takeWhile Char.isDigit
  let r := signo.2.dropWhile Char.isDigit
  if ds = [] then (0, false, r)
  else
    let v : Int := if signo.1 then -(valorDigitos ds : Int) else (valorDigitos ds : Int)
    if v > 2147483647 then (2147483647, false, r)
    else if v < -2147483648 then (-2147483648, false, r)
    else (v, true, r)

/-- `std::cin >> valor` for an `int valor`. -/
def extraerInt (c : Cin) (valor : Int) : Int × Cin :=
  if c.good then
    match c.buf.dropWhile esEspacio with
    | [] => (valor, ⟨[], true, true⟩)
    | b =>
      let r := leerInt b
      (r.1, ⟨r.2.2, r.2.2.isEmpty, !r.2.1⟩)
  else (valor, ⟨c.buf, c.eof, true⟩)

/-! ## Validated input -/

/-- The loop of `solicitarNumero`, at most `n` turns of it: `none` when the
turns run out. `valor` is the local variable, `out` what was printed so far. -/
def solicitarNumeroDesde {F : Type} (L : BibliotecaFloat F) (mensaje : String) :
    Nat → Cin → F → List (Emision F) → Option (F × Cin × List (Emision F))
  | 0, _, _, _ => none
  | n + 1, cin, valor, out =>
    let out := out ++ [.literal mensaje]
    let r := extraerFloat L cin valor
    if r.2.fail then
      let out := out ++ [.literal "Error: Debe ingresar un número válido.\n"]
      let cin := r.2.clear
      let cin := cin.ignoreHasta 10000
      solicitarNumeroDesde L mensaje n cin r.1 out
    else
      let cin := r.2.ignoreHasta streamsizeMax
      some (r.1, cin, out)

/-- `solicitarNumero`: the number returned, the state of `std::cin` and what was
printed; `none` when the loop never ends. Every turn that does not return
consumes a character while one is left, so the turns are bounded by the
length of the input. The local `valor` is not initialised; `cero` stands for it. -/
def solicitarNumero {F : Type} (L : BibliotecaFloat F) (mensaje : String) (cin : Cin) :
    Option (F × Cin × List (Emision F)) :=
  solicitarNumeroDesde L mensaje (cin.buf.length + 2) cin L.cero []

/-- The two `erase` of `solicitarTexto`: blanks and tabs are removed at the
start, then at the end. -/
def recortar (entrada : Texto) : Texto :=
  let entrada := entrada.dropWhile (fun ch => ch = ' ' || ch = '\t')
  entrada.rdropWhile (fun ch => ch = ' ' || ch = '\t')

/-- The loop of `solicitarTexto`, at most `n` turns of it: `none` when the turns
run out. `entrada` is the local variable, `out` what was printed so far. -/
def solicitarTextoDesde {F : Type} (mensaje : String) (permitirNumeros : Bool) :
    Nat → Cin → Texto → List (Emision F) → Option (Texto × Cin × List (Emision F))
  | 0, _, _, _ => none
  | n + 1, cin, entrada, out =>
    let out := out ++ [.literal mensaje]
    let r := getline cin entrada
    let entrada := recortar r.1
    if entrada = [] then
      solicitarTextoDesde mensaje permitirNumeros n r.2 entrada
        (out ++ [.literal "Error: No puede estar vacío.\n"])
    else if !permitirNumeros && entrada.any Char.isDigit then
      solicitarTextoDesde mensaje permitirNumeros n r.2 entrada
        (out ++ [.literal "Error: No se permiten números en este campo.\n"])
    else
      some (entrada, r.2, out)

/-- `solicitarTexto`: the text returned, the state of `std::cin` and what was
printed; `none` when the loop never ends. -/
def solicitarTexto {F : Type} (mensaje : String) (permitirNumeros : Bool) (cin : Cin) :
    Option (Texto × Cin × List (Emision F)) :=
  solicitarTextoDesde mensaje permitirNumeros (cin.buf.length + 2) cin [] []

/-- `registroDeComponentes`: the six prompts, then `push_back`. -/
def registroDeComponentes {F : Type} (L : BibliotecaFloat F) (registros : List (componente F))
    (cin : Cin) : Option (List (componente F) × Cin × List (Emision F)) := do
  let nombre ← solicitarTexto "Nombre del componente: " true cin
  let tipo ← solicitarTexto "Tipo del componente: " true nombre.2.1
  let valor ← solicitarNumero L "Valor nominal del componente: " tipo.2.1
  let tolerancia ← solicitarNumero L "Tolerancia del componente: " valor.2.1
  let voltaje ← solicitarNumero L "Voltaje del componente: " tolerancia.2.1
  let estado ← solicitarTexto "Estado del componente: " true voltaje.2.1
  let x : componente F := ⟨nombre.1, tipo.1, valor.1, tolerancia.1, voltaje.1, estado.1⟩
  some (registros ++ [x], estado.2.1,
    [.literal "Ingrese los datos del componente:\n"] ++ nombre.2.2 ++ tipo.2.2 ++ valor.2.2
      ++ tolerancia.2.2 ++ voltaje.2.2 ++ estado.2.2
      ++ [.literal "Componente registrado con éxito.\n\n"])

/-! ## Search -/

/-- `mostrarComponente`. -/
def mostrarComponente {F : Type} (c : componente F) : List (Emision F) :=
  [.literal "\nComponente encontrado:\n",
   .literal "Nombre: ", .cadena c.nombreDelComponente, .literal "\n",
   .literal "Tipo: ", .cadena c.tipoDeComponente, .literal "\n",
   .literal "Valor nominal: ", .flotante c.valorNominal, .literal "\n",
   .literal "Tolerancia: ", .flotante c.tolerancia, .literal "%\n",
   .literal "Voltaje: ", .flotante c.voltajeDeTrabajo, .literal "V\n",
   .literal "Estado: ", .cadena c.estado, .literal "\n",
   .literal "-----\n"]

/-- `std::string::find`: the first position at which `q` occurs in `s`, `none`
for `npos`. -/
def find : Texto → Texto → Option Nat
  | [], q => if q = [] then some 0 else none
  | ch :: s, q => if q.isPrefixOf (ch :: s) then some 0 else (find s q).map (fun i => i + 1)

/-- The `for (const auto& c : registros)` loop of the six search functions, from
the state `encontrado` and what was printed so far: a record for which the
condition of the `if` holds is shown and sets `encontrado`. -/
def recorrer {F : Type} (condicion : componente F → Bool) :
    List (componente F) → Bool → List (Emision F) → Bool × List (Emision F)
  | [], encontrado, out => (encontrado, out)
  | c :: resto, encontrado, out =>
    if condicion c then recorrer condicion resto true (out ++ mostrarComponente c)
    else recorrer condicion resto encontrado out

/-- The part the six search functions share after the query was read: the loop
from `encontrado = false`, then the message when `encontrado` is still false. -/
def buscar {F : Type} (condicion : componente F → Bool) (registros : List (componente F))
    (noEncontrado : String) (out : List (Emision F)) : List (Emision F) :=
  let r := recorrer condicion registros false out
  if r.1 = false then r.2 ++ [.literal noEncontrado] else r.2

/-- `buscarPorNombre`: the state of `std::cin` and what was printed. -/
def buscarPorNombre {F : Type} (registros : List (componente F)) (cin : Cin) :
    Option (Cin × List (Emision F)) := do
  let nombreComponente ←
    solicitarTexto "Ingrese el nombre del componente que desea encontrar \n" true cin
  some (nombreComponente.2.1,
    buscar (fun c => (find c.nombreDelComponente nombreComponente.1).isSome) registros
      "No se encontró ningún componente con ese nombre.\n" nombreComponente.2.2)

/-- `buscarPorTipo`. -/
def buscarPorTipo {F : Type} (registros : List (componente F)) (cin : Cin) :
    Option (Cin × List (Emision F)) := do
  let tipo ← solicitarTexto "Ingrese el tipo del componente que desea encontrar \n" true cin
  some (tipo.2.1,
    buscar (fun c => (find c.tipoDeComponente tipo.1).isSome) registros
      "No se encontró ningún componente de ese tipo.\n" tipo.2.2)

/-- `buscarPorValorNominal`. -/
def buscarPorValorNominal {F : Type} (L : BibliotecaFloat F) (registros : List (componente F))
    (cin : Cin) : Option (Cin × List (Emision F)) := do
  let valor ←
    solicitarNumero L "Ingrese el valor nominal del componente que desea encontrar \n" cin
  some (valor.2.1,
    buscar (fun c => L.igual c.valorNominal valor.1) registros
      "No se encontró ningún componente con ese valor nominal.\n" valor.2.2)

/-- `buscarPorTolerancia`. -/
def buscarPorTolerancia {F : Type} (L : BibliotecaFloat F) (registros : List (componente F))
    (cin : Cin) : Option (Cin × List (Emision F)) := do
  let toleranciaBuscada ←
    solicitarNumero L "Ingrese la tolerancia del componente que desea encontrar \n" cin
  some (toleranciaBuscada.2.1,
    buscar (fun c => L.igual c.tolerancia toleranciaBuscada.1) registros
      "No se encontró ningún componente con esa tolerancia.\n" toleranciaBuscada.2.2)

/-- `buscarPorVoltaje`. -/
def buscarPorVoltaje {F : Type} (L : BibliotecaFloat F) (registros : List (componente F))
    (cin : Cin) : Option (Cin × List (Emision F)) := do
  let voltajeBuscado ←
    solicitarNumero L "Ingrese el voltaje del componente que desea encontrar \n" cin
  some (voltajeBuscado.2.1,
    buscar (fun c => L.igual c.voltajeDeTrabajo voltajeBuscado.1) registros
      "No se encontró ningún componente con ese voltaje.\n" voltajeBuscado.2.2)

/-- `buscarPorEstado`. -/
def buscarPorEstado {F : Type} (registros : List (componente F)) (cin : Cin) :
    Option (Cin × List (Emision F)) := do
  let estado ← solicitarTexto "Ingrese el estado del componente que desea encontrar \n" true cin
  some (estado.2.1,
    buscar (fun c => (find c.estado estado.1).isSome) registros
      "No se encontró ningún componente en ese estado.\n" estado.2.2)

/-! ## Registration -/

/-- What `iniciarRegistro` leaves: the vector `registros`, the variable
`nombreArchivo`, the state of `std::cin`, the file system and what was printed. -/
structure Sesion (F : Type) where
  registros : List (componente F)
  nombreArchivo : Texto
  cin : Cin
  fs : Sistema
  salida : List (Emision F)

/-- The `while (continuar == 1)` loop of `iniciarRegistro`, at most `n` tests of
its condition: `none` when they run out. `registros.back()` is the record that
`registroDeComponentes` has just added. -/
def cicloDeRegistro {F : Type} (L : BibliotecaFloat F) (sobrescribir : Bool)
    (nombreArchivo : Texto) :
    Nat → List (componente F) → Int → Cin → Sistema → List (Emision F) → Option (Sesion F)
  | 0, _, _, _, _, _ => none
  | n + 1, registros, continuar, cin, fs, out =>
    if continuar = 1 then
      match registroDeComponentes L registros cin with
      | none => none
      | some r =>
        let g :=
          if sobrescribir then
            guardarEnArchivo L (r.1.getLastD (componente.nuevo L)) nombreArchivo fs
          else
            continuarConArchivo L (r.1.getLastD (componente.nuevo L)) nombreArchivo fs
        let out := out ++ r.2.2 ++ g.2 ++
          [.literal "Componente guardado correctamente.\n",
           .literal "¿Deseas ingresar otro componente? (1 = Sí, 2 = No): "]
        let e := extraerInt r.2.1 continuar
        let cin := e.2.ignore
        cicloDeRegistro L sobrescribir nombreArchivo n r.1 e.1 cin g.1 out
    else
      some ⟨registros, nombreArchivo, cin, fs,
        out ++ [.literal "Archivo guardado correctamente.\n"]⟩

/-- The end of `iniciarRegistro`, from the test of continuation mode on: the
early return when the file does not open, otherwise `registros.clear()` and
the loop from `continuar = 1`. `test` is `test.is_open()`. -/
def registrarDesde {F : Type} (L : BibliotecaFloat F) (registros : List (componente F))
    (nombreArchivo : Texto) (sobrescribir : Bool) (test : Bool) (cin : Cin) (fs : Sistema)
    (out : List (Emision F)) : Option (Sesion F) :=
  if !sobrescribir && !test then
    some ⟨registros, nombreArchivo, cin, fs,
      out ++ [.literal "El archivo no existe. No se puede continuar\n"]⟩
  else
    cicloDeRegistro L sobrescribir nombreArchivo (cin.buf.length + 2) [] 1 cin fs out

/-- `iniciarRegistro`: `none` when the call never returns. -/
def iniciarRegistro {F : Type} (L : BibliotecaFloat F) (registros : List (componente F))
    (nombreArchivo : Texto) (sobrescribir : Bool) (cin : Cin) (fs : Sistema) :
    Option (Sesion F) :=
  let cin := cin.ignore
  let out : List (Emision F) :=
    [.literal "Ingresa el nombre del archivo (agrega .txt al final): \n"]
  let g := getline cin nombreArchivo
  let test := (fs.abrirLectura g.1).isSome
  if sobrescribir && test then
    let out := out ++ [.literal "El archivo ya existe y será sobrescrito\n",
      .literal "¿Continuar?\nSi(1) No(2)\n"]
    let e := extraerInt g.2 0
    let cin := e.2.ignore
    if e.1 ≠ 1 then some ⟨registros, g.1, cin, fs, out⟩
    else registrarDesde L registros g.1 sobrescribir test cin fs out
  else registrarDesde L registros g.1 sobrescribir test g.2 fs out

/-! ## The reading loop with its counter made visible -/

/-- `mostrarMenu`. -/
def mostrarMenu {F : Type} : List (Emision F) :=
  [.literal "\n============================\n",
   .literal "¡Bienvenido! seleccione una opción:\n",
   .literal "(1)Nuevo registro de componentes \n",
   .literal "(2)Continuar registro desde un archivo existente. \n",
   .literal "(3)Ver registros de un archivo existente. \n",
   .literal "(4)Eliminar el contenido de un archivo. \n",
   .literal "(5)Buscar un componente en un archivo\n",
   .literal "(6)Salir\n",
   .literal "\n============================\n"]

/-- The loop of `eleccionMenuprincipal`, at most `n` turns of it: `none` when
the turns run out. `eleccion` is the local variable, `out` what was printed. -/
def eleccionDesde {F : Type} :
    Nat → Cin → Int → List (Emision F) → Option (Int × Cin × List (Emision F))
  | 0, _, _, _ => none
  | n + 1, cin, eleccion, out =>
    let out := out ++ mostrarMenu
    let e := extraerInt cin eleccion
    if e.2.fail then
      let cin := e.2.clear
      let cin := cin.ignoreHasta 10000
      eleccionDesde n cin e.1
        (out ++ [.literal "Entrada inválida. Por favor, ingresa un número del 1 al 6.\n"])
    else if e.1 ≥ 1 ∧ e.1 ≤ 6 then
      some (e.1, e.2, out)
    else
      eleccionDesde n (e.2.ignoreHasta 10000) e.1
        (out ++ [.literal "Opción fuera de rango. Ingresa un número entre 1 y 6.\n"])

/-- `eleccionMenuprincipal`: the option returned, the state of `std::cin` and
what was printed; `none` when the loop never ends. -/
def eleccionMenuprincipal {F : Type} (cin : Cin) : Option (Int × Cin × List (Emision F)) :=
  eleccionDesde (cin.buf.length + 2) cin 0 []

/-- `mostrarArchivoExistente`: what goes to `std::cout` and what goes to
`std::cerr`. `std::endl` is a line break. -/
def mostrarArchivoExistente {F : Type} (nombreArchivo : Texto) (fs : Sistema) :
    List (Emision F) × List (Emision F) :=
  match fs.abrirLectura nombreArchivo with
  | none => ([], [.literal "Error al abrir el archivo.", .literal "\n"])
  | some texto =>
    ([.literal "Contenido del archivo línea por línea:\n"] ++
      (lineas texto).flatMap (fun l => [.cadena l, .literal "\n"]), [])

/-- `eliminarContenidoArchivo`: `std::ofstream archivo(nombreArchivo, std::ios::trunc)`. -/
def eliminarContenidoArchivo {F : Type} (nombreArchivo : Texto) (fs : Sistema) :
    Sistema × List (Emision F) :=
  if fs.escritura nombreArchivo then
    (fs.escribir nombreArchivo [],
      [.literal "El archivo '", .cadena nombreArchivo, .literal "' fue vaciado con éxito.\n"])
  else
    (fs, [.literal "No se pudo abrir el archivo.\n"])

/-- `menuParametro`. -/
def menuParametro {F : Type} : List (Emision F) :=
  [.literal "\n============================\n",
   .literal "(1) Nombre. \n",
   .literal "(2) Tipo. \n",
   .literal "(3) Valor nominal. \n",
   .literal "(4) Tolerancia. \n",
   .literal "(5) Voltaje de trabajo. \n",
   .literal "(6) Estado  \n",
   .literal "(7) Salir  \n",
   .literal "Elija el parámetro de búsqueda a utilizar: \n",
   .literal "\n============================\n"]

/-- `buscarPorParametro`: the `switch (opcion)`. `case 7` has no `break` and
runs on into `default`. -/
def buscarPorParametro {F : Type} (L : BibliotecaFloat F) (opcion : Int)
    (registros : List (componente F)) (cin : Cin) : Option (Cin × List (Emision F)) :=
  if opcion = 1 then buscarPorNombre registros cin
  else if opcion = 2 then buscarPorTipo registros cin
  else if opcion = 3 then buscarPorValorNominal L registros cin
  else if opcion = 4 then buscarPorTolerancia L registros cin
  else if opcion = 5 then buscarPorVoltaje L registros cin
  else if opcion = 6 then buscarPorEstado registros cin
  else if opcion = 7 then
    some (cin, [.literal "Volviendo al menú principal...",
      .literal "Entrada inválida, volviendo al menú principal..."])
  else
    some (cin, [.literal "Entrada inválida, volviendo al menú principal..."])

/-- The variables of `main` and the world around it: the vector `registros`,
the variable `nombreArchivo`, `std::cin`, the file system, and what went to
`std::cout` and to `std::cerr`. -/
structure Estado (F : Type) where
  registros : List (componente F)
  nombreArchivo : Texto
  cin : Cin
  fs : Sistema
  cout : List (Emision F)
  cerr : List (Emision F)

/-- How the process ends: `return` from `main` with an exit code, or
`std::terminate` on an exception that nothing catches. -/
inductive FinDeProceso where
  | retorno (codigo : Int)
  | terminate (e : ErrorStof)
  deriving DecidableEq, Repr

/-- The `while (true)` loop of `main`, at most `n` turns of it: how the process
ends and the state at that moment, `none` when the turns run out.
`indeterminado` is the value of the local `int opcion`, which is not
initialised. -/
def mainDesde {F : Type} (L : BibliotecaFloat F) (indeterminado : Int) :
    Nat → Estado F → Option (FinDeProceso × Estado F)
  | 0, _ => none
  | n + 1, est =>
    match eleccionMenuprincipal est.cin with
    | none => none
    | some m =>
      let eleccion := m.1
      let cout := est.cout ++ m.2.2
      if eleccion = 1 then
        match iniciarRegistro L est.registros est.nombreArchivo true m.2.1 est.fs with
        | none => none
        | some s =>
          mainDesde L indeterminado n
            ⟨s.registros, s.nombreArchivo, s.cin, s.fs, cout ++ s.salida, est.cerr⟩
      else if eleccion = 2 then
        match iniciarRegistro L est.registros est.nombreArchivo false m.2.1 est.fs with
        | none => none
        | some s =>
          mainDesde L indeterminado n
            ⟨s.registros, s.nombreArchivo, s.cin, s.fs, cout ++ s.salida, est.cerr⟩
      else if eleccion = 3 then
        let cin := m.2.1.ignore
        let cout := cout ++ [.literal
          "Ingresa el nombre del archivo que deseas ver (agrega .txt al final): \n"]
        let g := getline cin est.nombreArchivo
        let v := mostrarArchivoExistente g.1 est.fs
        mainDesde L indeterminado n
          ⟨est.registros, g.1, g.2, est.fs, cout ++ v.1, est.cerr ++ v.2⟩
      else if eleccion = 4 then
        let cin := m.2.1.ignore
        let cout := cout ++ [.literal
          "Ingresa el nombre del archivo que deseas vaciar (agrega .txt al final): \n"]
        let g := getline cin est.nombreArchivo
        let v := eliminarContenidoArchivo g.1 est.fs
        mainDesde L indeterminado n
          ⟨est.registros, g.1, g.2, v.1, cout ++ v.2, est.cerr⟩
      else if eleccion = 5 then
        let cin := m.2.1.ignore
        let cout := cout ++ [.literal ("Ingresa el nombre del archivo con en el que deseas "
          ++ "buscar tu componente (agrega .txt al final): \n")]
        let g := getline cin est.nombreArchivo
        let c := cargarDesdeArchivo L est.registros g.1 est.fs
        match c.error with
        | some e =>
          some (.terminate e, ⟨c.registros, g.1, g.2, est.fs, cout ++ c.salida, est.cerr⟩)
        | none =>
          let cout := cout ++ c.salida ++ menuParametro
          let e := extraerInt g.2 indeterminado
          let cin := e.2.ignore
          match buscarPorParametro L e.1 c.registros cin with
          | none => none
          | some b =>
            mainDesde L indeterminado n
              ⟨c.registros, g.1, b.1, est.fs, cout ++ b.2, est.cerr⟩
      else if eleccion = 6 then
        some (.retorno 0,
          ⟨est.registros, est.nombreArchivo, m.2.1, est.fs,
            cout ++ [.literal "Vuelva pronto \n"], est.cerr⟩)
      else
        mainDesde L indeterminado n
          ⟨est.registros, est.nombreArchivo, m.2.1, est.fs,
            cout ++ [.literal "Error, opción no válida. \n"], est.cerr⟩

/-- `main` on the input `cin` and the file system `fs`: `registros` and
`nombreArchivo` start empty. `none` when the process never ends. -/
def main {F : Type} (L : BibliotecaFloat F) (indeterminado : Int) (cin : Cin) (fs : Sistema) :
    Option (FinDeProceso × Estado F) :=
  mainDesde L indeterminado (cin.buf.length + 2) ⟨[], [], cin, fs, [], []⟩

/-! ## The record format in the words of the specification -/

/-- The seven lines of a record, in the order of the format: name, kind,
nominal value, tolerance, working voltage, status, delimiter. -/
def lineasDeRegistro {F : Type} (L : BibliotecaFloat F) (x : componente F) : List Texto :=
  [x.nombreDelComponente, x.tipoDeComponente, L.fmt x.valorNominal, L.fmt x.tolerancia,
    L.fmt x.voltajeDeTrabajo, x.estado, separador]

/-- The serialisation of a record: its seven lines, each ended by a line break. -/
def serializar {F : Type} (L : BibliotecaFloat F) (x : componente F) : Texto :=
  (lineasDeRegistro L x).flatMap (fun l => l ++ ['\n'])

/-- The serialisations of a list of records, one after the other. -/
def serializarTodos {F : Type} (L : BibliotecaFloat F) (rs : List (componente F)) : Texto :=
  rs.flatMap (serializar L)

/-- No text field of the record holds a line break. -/
def sinSalto {F : Type} (x : componente F) : Prop :=
  '\n' ∉ x.nombreDelComponente ∧ '\n' ∉ x.tipoDeComponente ∧ '\n' ∉ x.estado

/-- The record `y` is the record `x` read back: same name, kind and status, and
each numeric field is what `std::stof` returns on the text written for it. -/
def Releido {F : Type} (L : BibliotecaFloat F) (x y : componente F) : Prop :=
  y.nombreDelComponente = x.nombreDelComponente ∧ y.tipoDeComponente = x.tipoDeComponente ∧
  L.stof (L.fmt x.valorNominal) = .ok y.valorNominal ∧
  L.stof (L.fmt x.tolerancia) = .ok y.tolerancia ∧
  L.stof (L.fmt x.voltajeDeTrabajo) = .ok y.voltajeDeTrabajo ∧
  y.estado = x.estado

/-- What a search prints after the query was read, in the words of the
specification: every record that satisfies the query is shown, in the order of
the vector; when there is none, the "not found" message alone. -/
def resultadoDeBusqueda {F : Type} (satisface : componente F → Prop) [DecidablePred satisface]
    (registros : List (componente F)) (noEncontrado : String) : List (Emision F) :=
  let hallados := registros.filter (fun c => decide (satisface c))
  if hallados.isEmpty then [.literal noEncontrado] else hallados.flatMap mostrarComponente

/-- A search that found nothing reports it, in the words of the specification:
the call returns (with `std::cin` in the state `cin'`), after `out` it prints
`o`, the "not found" message is in what was printed exactly when `ninguno`
holds, and in that case `o` is that message alone, so no record is shown. -/
def InformaSinResultado {F : Type} (resultado : Option (Cin × List (Emision F))) (cin' : Cin)
    (out : List (Emision F)) (noEncontrado : String) (ninguno : Prop) : Prop :=
  ∃ o, resultado = some (cin', out ++ o) ∧
    (Emision.literal noEncontrado ∈ out ++ o ↔ ninguno) ∧
    (ninguno → o = [Emision.literal noEncontrado])

/-- The name, the kind and the status of the record are not empty. -/
def camposNoVacios {F : Type} (x : componente F) : Prop :=
  x.nombreDelComponente ≠ [] ∧ x.tipoDeComponente ≠ [] ∧ x.estado ≠ []

/-- The text passes the two tests of `solicitarTexto`: it is not empty and,
when digits are not allowed, it holds no decimal digit. -/
def aceptable (permitirNumeros : Bool) (t : Texto) : Bool :=
  !t.isEmpty && (permitirNumeros || !t.any Char.isDigit)

/-- The message `solicitarTexto` prints for a text that it refuses. -/
def mensajeDeRechazo (t : Texto) : String :=
  if t.isEmpty then "Error: No puede estar vacío.\n"
  else "Error: No se permiten números en este campo.\n"

/-- The entry holds nothing but white space: `operator>>` skips it. -/
def enBlanco (e : Texto) : Bool := e.all esEspacio

/-- The line `e` is an entry that `std::cin >> valor` refuses, whatever
follows it: after its white space come characters in which the library finds no
number, and it leaves a part `r` of them in the buffer. The line is shorter
than the 10000 characters that `ignore` drops. -/
def EntradaRechazada {F : Type} (L : BibliotecaFloat F) (e : Texto) : Prop :=
  '\n' ∉ e ∧ e.length < 10000 ∧ e.dropWhile esEspacio ≠ [] ∧
  ∀ resto, ∃ r, r <:+ e.dropWhile esEspacio ∧
    L.leerFloat (e.dropWhile esEspacio ++ '\n' :: resto) = (none, r ++ '\n' :: resto)

/-- The line `e` is an entry in which `std::cin >> valor` reads the number
`v`, whatever follows it: after its white space come characters that start
with a number of value `v`, and the library leaves a part `r` of them in the
buffer. -/
def EntradaAceptada {F : Type} (L : BibliotecaFloat F) (e : Texto) (v : F) : Prop :=
  '\n' ∉ e ∧ e.length < streamsizeMax ∧ e.dropWhile esEspacio ≠ [] ∧
  ∀ resto, ∃ r, r <:+ e.dropWhile esEspacio ∧
    L.leerFloat (e.dropWhile esEspacio ++ '\n' :: resto) = (some v, r ++ '\n' :: resto)

/-- The first step of `leerInt`: whether a minus sign was read, and the
characters after the sign. -/
def signoDe (b : List Char) : Bool × List Char :=
  match b with
  | '-' :: r => (true, r)
  | '+' :: r => (false, r)
  | _ => (false, b)

/-- The second step of `leerInt`: the digits after the sign and their value. -/
def leerIntCon (signo : Bool × List Char) : Int × Bool × List Char :=
  let ds := signo.2.takeWhile Char.isDigit
  let r := signo.2.dropWhile Char.isDigit
  if ds = [] then (0, false, r)
  else
    let v : Int := if signo.1 then -(valorDigitos ds : Int) else (valorDigitos ds : Int)
    if v > 2147483647 then (2147483647, false, r)
    else if v < -2147483648 then (-2147483648, false, r)
    else (v, true, r)

/-- The first `k` lines of the serialisation of a record, each ended by a line
break. -/
def primerasLineas {F : Type} (L : BibliotecaFloat F) (k : Nat) (x : componente F) : Texto :=
  ((lineasDeRegistro L x).take k).flatMap (fun l => l ++ ['\n'])

/-! ## A sample of `float` values

Eight `float` values with the text `operator<<` prints for each, used to run
the definitions on concrete records. `1234567` shows that the six significant
digits of the default format do not give the value back; `1e-40`, a subnormal
value, shows that the text written for a finite value can be one that
`std::stof` refuses. -/

/-- Eight `float` values: 0, 5, 5.0001, 12.5, 1000, 1234567, 1234570 and the
subnormal `float` nearest to 1e-40. -/
inductive FloatMuestra where
  | v0 | v5 | v5_0001 | v12_5 | v1000 | v1234567 | v1234570 | v1e_40
  deriving DecidableEq, Repr

/-- The text `operator<<` prints for each value of the sample. -/
def FloatMuestra.fmt : FloatMuestra → Texto
  | .v0 => ['0']
  | .v5 => ['5']
  | .v5_0001 => ['5', '.', '0', '0', '0', '1']
  | .v12_5 => ['1', '2', '.', '5']
  | .v1000 => ['1', '0', '0', '0']
  | .v1234567 => ['1', '.', '2', '3', '4', '5', '7', 'e', '+', '0', '6']
  | .v1234570 => ['1', '.', '2', '3', '4', '5', '7', 'e', '+', '0', '6']
  | .v1e_40 => ['9', '.', '9', '9', '9', '9', '5', 'e', '-', '4', '1']

/-- The decimal texts of the sample with the `float` each one denotes; a text
comes before the texts that start it. -/
def FloatMuestra.tabla : List (Texto × FloatMuestra) :=
  [("1.23457e+06".toList, .v1234570), ("1234567".toList, .v1234567),
   ("1234570".toList, .v1234570), ("5.0001".toList, .v5_0001), ("12.5".toList, .v12_5),
   ("1000".toList, .v1000), ("5".toList, .v5), ("0".toList, .v0)]

/-- The decimal texts of the sample that denote a subnormal `float`:
`std::stof` converts them with `strtof`, which reports a range error. -/
def FloatMuestra.subnormales : List Texto :=
  ["1e-40".toList, "9.99995e-41".toList]

/-- `std::stof` on the texts of the sample: out of range on a subnormal, the
value on a text of the table; every other text is refused. -/
def FloatMuestra.stof (t : Texto) : Except ErrorStof FloatMuestra :=
  if t ∈ FloatMuestra.subnormales then .error .out_of_range
  else
    match FloatMuestra.tabla.find? (fun e => e.1 = t) with
    | some e => .ok e.2
    | none => .error .invalid_argument

/-- The texts `operator>>` converts: those of the table and the subnormal
ones, for which it stores the value without a failure. -/
def FloatMuestra.tablaDeLectura : List (Texto × FloatMuestra) :=
  FloatMuestra.subnormales.map (fun t => (t, FloatMuestra.v1e_40)) ++ FloatMuestra.tabla

/-- Extraction from a buffer: the first text of the table that starts the
buffer is consumed. -/
def FloatMuestra.leerFloat (b : List Char) : Option FloatMuestra × List Char :=
  match FloatMuestra.tablaDeLectura.find? (fun e => e.1.isPrefixOf b) with
  | some e => (some e.2, b.drop e.1.length)
  | none => (none, b)

/-- The library restricted to the sample. -/
def muestra : BibliotecaFloat FloatMuestra :=
  ⟨.v0, fun a b => decide (a = b), FloatMuestra.fmt, FloatMuestra.stof, FloatMuestra.leerFloat,
    fun v => by cases v <;> decide,
    fun b => by
      unfold FloatMuestra.leerFloat
      split
      · exact List.drop_suffix _ _
      · exact List.suffix_refl _⟩

/-- The record of the example in the documentation of `guardarEnArchivo`
(with `k` for the unit). -/
def resistor : componente FloatMuestra :=
  ⟨"Resistor 1k".toList, "Resistor".toList, .v1000, .v5, .v12_5, "Nuevo".toList⟩

/-- A second record. -/
def capacitor : componente FloatMuestra :=
  ⟨"resistor 2k".toList, "Capacitor".toList, .v1234567, .v5_0001, .v5, "Usado".toList⟩

/-- The record `capacitor` as it is read back from a file. -/
def capacitorLeido : componente FloatMuestra :=
  ⟨"resistor 2k".toList, "Capacitor".toList, .v1234570, .v5_0001, .v5, "Usado".toList⟩

/-- A record whose nominal value is subnormal. -/
def diminuto : componente FloatMuestra :=
  ⟨"Resistor 1k".toList, "Resistor".toList, .v1e_40, .v5, .v12_5, "Nuevo".toList⟩

/-- A record with a line break in its name. -/
def partido : componente FloatMuestra :=
  ⟨"a\nb".toList, "Resistor".toList, .v1000, .v5, .v12_5, "Nuevo".toList⟩

/-- A file system with no file, where every path can be opened. -/
def discoVacio : Sistema := ⟨fun _ => none, fun _ => true, fun _ => true⟩

/-- A path. -/
def ruta : Texto := "componentes.txt".toList

/-- What the user types in a registration session on `componentes.txt`, after
the line break left by the menu: the record `resistor`, `1` to go on, the record
`capacitor`, `2` to stop. -/
def cinSesion : Cin :=
  ⟨("\ncomponentes.txt\nResistor 1k\nResistor\n1000\n5\n12.5\nNuevo\n1\n"
    ++ "resistor 2k\nCapacitor\n1234567\n5.0001\n5\nUsado\n2\n").toList, false, false⟩

/-- A file system whose only file, `malo.txt`, has a third line that is not a
number. -/
def discoMalo : Sistema := discoVacio.escribir "malo.txt".toList "a\nb\nxyz\n".toList

/-- A file system whose only file, `componentes.txt`, holds `resistor`. -/
def discoConResistor : Sistema := discoVacio.escribir ruta (serializar muestra resistor)

/-- A record file in which the lines of the name, the kind and the status are
empty. -/
def textoConVacios : Texto := "\n\n1000\n5\n12.5\n\n-----\n".toList

/-- What the user types to register one component whose status is `Usado2`. -/
def cinEstadoConDigitos : Cin :=
  ⟨"Resistor 1k\nResistor\n1000\n5\n12.5\nUsado2\n".toList, false, false⟩

/-- What the user types to search `componentes.txt` and go back (5, the name,
7), then to search by name (1) for `Res` in `noexiste.txt`, then to leave (6). -/
def cinBusquedaFallida : Cin :=
  ⟨"5\ncomponentes.txt\n7\n5\nnoexiste.txt\n1\nRes\n6\n".toList, false, false⟩

/-- A file system whose only file, `componentes.txt`, holds `resistor`, then
the first two lines of `capacitor`, then the line `xyz` where its nominal value
should be, then the rest of a record. -/
def discoConFallo : Sistema :=
  discoVacio.escribir ruta
    (serializarTodos muestra [resistor] ++
      (primerasLineas muestra 2 capacitor ++ "xyz\n5\n5\nUsado\n-----\n".toList))

end RegistroDeComponentes

/-! # contadorDeDigitos.cpp : number of decimal digits of an integer -/

namespace ContadorDeDigitos

open RegistroDeComponentes

/-- One `<<` on `std::cout`: a string literal of the program or an `int`. -/
inductive Emision where
  | literal (s : String)
  | entero (n : Int)
  deriving DecidableEq, Repr

/-- The loop `while (temp > 0) { temp /= 10; contador++; }`, at most `n` tests
of its condition: the value of `contador` at the end, `none` when the tests run
out. The division of `int` truncates. -/
def contarDesde : Nat → Int → Int → Option Int
  | 0, _, _ => none
  | n + 1, temp, contador =>
    if temp > 0 then contarDesde n (temp.tdiv 10) (contador + 1) else some contador

/-- `main` of `contadorDeDigitos.cpp`: the exit code and what was printed.
`indeterminado` is the value of `num` before `std::cin >> num`, which is not
initialised. Every turn of the loop makes `temp` smaller, so `num + 1` tests
are enough. -/
def main (indeterminado : Int) (cin : Cin) : Option (Int × List Emision) :=
  let out := [Emision.literal "Ingrese un número entero positivo: "]
  let num := (extraerInt cin indeterminado).1
  if num ≤ 0 then
    some (1, out ++ [.literal "Por favor, ingrese un número entero positivo.", .literal "\n"])
  else
    match contarDesde (num.toNat + 1) num 0 with
    | none => none
    | some contador =>
      some (0, out ++ [.literal "El número ", .entero num, .literal " tiene ",
        .entero contador, .literal " dígitos.", .literal "\n"])

end ContadorDeDigitos

/-! # mayorMenorEnArreglo.cpp : smallest and greatest of ten integers -/

namespace MayorMenorEnArreglo

open RegistroDeComponentes

/-- One `<<` on `std::cout`: a string literal of the program or an `int`. -/
inductive Emision where
  | literal (s : String)
  | entero (n : Int)
  deriving DecidableEq, Repr

/-- The first `for`, over the indices left: the prompt, then
`std::cin >> nums[i]`. -/
def leerNums : List Nat → Cin → List Int → List Emision → Cin × List Int × List Emision
  | [], cin, nums, out => (cin, nums, out)
  | i :: is, cin, nums, out =>
    let out := out ++ [Emision.literal "Ingresa un número: \n"]
    let e := extraerInt cin (nums.getD i 0)
    leerNums is e.2 (nums.set i e.1) out

/-- The second `for`, over the indices left, from the provisional `menor` and
`mayor`. -/
def menorMayor (nums : List Int) : List Nat → Int × Int → Int × Int
  | [], mm => mm
  | i :: is, mm =>
    let menor := if nums.getD i 0 < mm.1 then nums.getD i 0 else mm.1
    let mayor := if nums.getD i 0 > mm.2 then nums.getD i 0 else mm.2
    menorMayor nums is (menor, mayor)

/-- `main` of `mayorMenorEnArreglo.cpp`: the exit code and what was printed.
`indeterminado` is the content of the array `nums` before it is read, which is
not initialised. -/
def main (indeterminado : List Int) (cin : Cin) : Int × List Emision :=
  let r := leerNums (List.range 10) cin indeterminado []
  let nums := r.2.1
  let mm := menorMayor nums (List.range' 1 9) (nums.getD 0 0, nums.getD 0 0)
  (0, r.2.2 ++ [.literal "El número mayor es ", .entero mm.2,
    .literal " y el numero menor es ", .entero mm.1, .literal "."])

/-- The line `e` holds an integer of value `v`, within the range of `int`,
followed by white space only. -/
def EnteroEnLinea (e : Texto) (v : Int) : Prop :=
  e.dropWhile esEspacio ≠ [] ∧ (leerInt (e.dropWhile esEspacio)).1 = v ∧
  (leerInt (e.dropWhile esEspacio)).2.1 = true ∧
  enBlanco (leerInt (e.dropWhile esEspacio)).2.2 = true

/-- Ten lines typed by the user, one integer each. -/
def entradasDiez : List Texto :=
  ["3", "-1", "7", "7", "0", "12", "5", "-9", "4", "2"].map String.toList

end MayorMenorEnArreglo

/-! # inventarioDeProductos.cpp : five products and a search by name -/

namespace InventarioDeProductos

open RegistroDeComponentes

/-- The `struct productos`. -/
structure productos (F : Type) where
  producto : Texto
  precio : F
  cantidad : Int
  deriving DecidableEq, Repr

/-- One `<<` on `std::cout`: a string literal of the program, a `std::string`,
a `float` or an `int`. -/
inductive Emision (F : Type) where
  | literal (s : String)
  | cadena (t : Texto)
  | flotante (v : F)
  | entero (n : Int)
  deriving DecidableEq, Repr

/-- The element `p[i]` of the array. -/
def elemento {F : Type} (L : BibliotecaFloat F) (p : List (productos F)) (i : Nat) :
    productos F :=
  p.getD i ⟨[], L.cero, 0⟩

/-- The first `for`, over the indices left: for each product the prompts,
`std::cin.ignore()`, `std::getline` for the name, then `std::cin >>` for the
price and for the quantity. -/
def capturar {F : Type} (L : BibliotecaFloat F) :
    List Nat → Cin → List (productos F) → List (Emision F) →
      Cin × List (productos F) × List (Emision F)
  | [], cin, p, out => (cin, p, out)
  | i :: is, cin, p, out =>
    let out := out ++ [.literal "Ingrese los datos del producto ", .entero ((i : Int) + 1),
      .literal ": \n", .literal "Producto: "]
    let cin := cin.ignore
    let g := getline cin (elemento L p i).producto
    let out := out ++ [.literal "Precio: "]
    let f := extraerFloat L g.2 (elemento L p i).precio
    let out := out ++ [.literal "Cantidad: "]
    let e := extraerInt f.2 (elemento L p i).cantidad
    capturar L is e.2 (p.set i ⟨g.1, f.1, e.1⟩) out

/-- The second `for`, over the indices left: the first product whose name
equals `prod` is shown and ends the loop. The result is `encontrado` and what
was printed. -/
def buscar {F : Type} (L : BibliotecaFloat F) (p : List (productos F)) (prod : Texto) :
    List Nat → Bool × List (Emision F)
  | [] => (false, [])
  | i :: is =>
    if (elemento L p i).producto = prod then
      (true, [.literal "Producto encontrado: \n",
        .literal "Producto: ", .cadena (elemento L p i).producto, .literal "\n",
        .literal "Precio: ", .flotante (elemento L p i).precio, .literal "\n",
        .literal "Cantidad: ", .entero (elemento L p i).cantidad, .literal "\n"])
    else buscar L p prod is

/-- `main` of `inventarioDeProductos.cpp`: the exit code and what was printed.
`indeterminado` is the content of the array `p` before it is filled. -/
def main {F : Type} (L : BibliotecaFloat F) (indeterminado : List (productos F)) (cin : Cin) :
    Int × List (Emision F) :=
  let c := capturar L (List.range 5) cin indeterminado []
  let out := c.2.2 ++ [.literal "Ingresa el producto que deseas buscar: "]
  let cin := c.1.ignore
  let g := getline cin []
  let b := buscar L c.2.1 g.1 (List.range 5)
  if !b.1 then
    (0, out ++ b.2 ++ [.literal "No se encontró ningún producto con ese nombre."])
  else (0, out ++ b.2)

/-- Five products of unspecified content: the array before it is filled. -/
def sinIniciar : List (productos FloatMuestra) :=
  List.replicate 5 ⟨[], .v0, 0⟩

/-- What the user types: five products, the first one named `Manzana`, then
the query `Manzana`. -/
def cinInventario : Cin :=
  ⟨("Manzana\n5\n3\nPera\n12.5\n1\nUva\n5\n2\nKiwi\n1000\n4\nCoco\n5\n5\n"
    ++ "Manzana\n").toList, false, false⟩

end InventarioDeProductos

namespace RegistroDeComponentes

/-! ## Theorems -/

theorem lineasDesde_linea (l resto acc : List Char) (h : '\n' ∉ l) :
    lineasDesde (l ++ '\n' :: resto) acc = (acc.reverse ++ l) :: lineasDesde resto [] := by
  induction l generalizing acc with
  | nil => simp [lineasDesde]
  | cons c cs ih =>
    have hc : c ≠ '\n' := fun e => h (by simp [e])
    have hcs : '\n' ∉ cs := fun e => h (by simp [e])
    simp [lineasDesde, hc, ih _ hcs]

theorem lineas_linea (l resto : List Char) (h : '\n' ∉ l) :
    lineas (l ++ '\n' :: resto) = l :: lineas resto := by
  simp [lineas, lineasDesde_linea l resto [] h]

theorem separador_sin_salto : '\n' ∉ separador := by decide

theorem lineas_serializar {F : Type} (L : BibliotecaFloat F) (x : componente F)
    (hx : sinSalto x) (t : Texto) :
    lineas (serializar L x ++ t) = lineasDeRegistro L x ++ lineas t := by
  obtain ⟨h1, h2, h3⟩ := hx
  simp only [serializar, lineasDeRegistro, List.flatMap_cons, List.flatMap_nil, List.append_nil,
    List.append_assoc, List.singleton_append, List.cons_append, List.nil_append]
  rw [lineas_linea _ _ h1, lineas_linea _ _ h2, lineas_linea _ _ (L.fmt_sin_salto _),
    lineas_linea _ _ (L.fmt_sin_salto _), lineas_linea _ _ (L.fmt_sin_salto _),
    lineas_linea _ _ h3, lineas_linea _ _ separador_sin_salto]

theorem cargarLineas_registro {F : Type} (L : BibliotecaFloat F) (x y : componente F)
    (hxy : Releido L x y) (ls : List Texto) (regs : List (componente F)) :
    cargarLineas L (lineasDeRegistro L x ++ ls) regs (componente.nuevo L) 0
      = cargarLineas L ls (regs ++ [y]) (componente.nuevo L) 0 := by
  obtain ⟨h1, h2, h3, h4, h5, h6⟩ := hxy
  simp [lineasDeRegistro, cargarLineas, h3, h4, h5, componente.nuevo, ← h1, ← h2, ← h6]

theorem cargarLineas_todos {F : Type} (L : BibliotecaFloat F) (xs ys : List (componente F))
    (hs : ∀ x ∈ xs, sinSalto x) (hxy : List.Forall₂ (Releido L) xs ys) (t : Texto)
    (regs : List (componente F)) :
    cargarLineas L (lineas (serializarTodos L xs ++ t)) regs (componente.nuevo L) 0
      = cargarLineas L (lineas t) (regs ++ ys) (componente.nuevo L) 0 := by
  induction hxy generalizing regs with
  | nil => simp [serializarTodos]
  | @cons x y xs ys hxy _ ih =>
    have hx : sinSalto x := hs x (by simp)
    have hrest : ∀ z ∈ xs, sinSalto z := fun z hz => hs z (by simp [hz])
    have e : serializarTodos L (x :: xs) ++ t = serializar L x ++ (serializarTodos L xs ++ t) := by
      simp [serializarTodos]
    rw [e, lineas_serializar L x hx, cargarLineas_registro L x y hxy, ih hrest]
    simp

theorem guardar_contenido {F : Type} (L : BibliotecaFloat F) (x : componente F) (p : Texto)
    (fs : Sistema) (hw : fs.escritura p = true) :
    (guardarEnArchivo L x p fs).1 = fs.escribir p (serializar L x) := by
  simp [guardarEnArchivo, hw, serializar, lineasDeRegistro]

theorem continuar_contenido {F : Type} (L : BibliotecaFloat F) (x : componente F) (p : Texto)
    (fs : Sistema) (hw : fs.escritura p = true) :
    (continuarConArchivo L x p fs).1 = fs.escribir p (fs.previo p ++ serializar L x) := by
  simp [continuarConArchivo, hw, serializar, lineasDeRegistro]

theorem abrirLectura_escribir (fs : Sistema) (p t : Texto) (hr : fs.lectura p = true) :
    (fs.escribir p t).abrirLectura p = some t := by
  simp [Sistema.abrirLectura, Sistema.escribir, hr]

theorem cargar_serializados {F : Type} (L : BibliotecaFloat F) (fs : Sistema) (p : Texto)
    (xs ys previos : List (componente F))
    (hcont : fs.abrirLectura p = some (serializarTodos L xs))
    (hs : ∀ x ∈ xs, sinSalto x) (hxy : List.Forall₂ (Releido L) xs ys) :
    cargarDesdeArchivo L previos p fs = ⟨ys, none, []⟩ := by
  have h := cargarLineas_todos L xs ys hs hxy [] []
  simp only [List.append_nil, List.nil_append] at h
  have h0 : cargarLineas L (lineas []) ys (componente.nuevo L) 0 = (ys, none) := by
    simp [lineas, lineasDesde, cargarLineas]
  simp only [cargarDesdeArchivo, hcont, h, h0]

theorem cargar_tras_escribir {F : Type} (L : BibliotecaFloat F) (fs : Sistema) (p : Texto)
    (xs ys previos : List (componente F)) (hr : fs.lectura p = true)
    (hs : ∀ x ∈ xs, sinSalto x) (hxy : List.Forall₂ (Releido L) xs ys) :
    cargarDesdeArchivo L previos p (fs.escribir p (serializarTodos L xs)) = ⟨ys, none, []⟩ :=
  cargar_serializados L _ p xs ys previos (abrirLectura_escribir fs p _ hr) hs hxy

theorem serializarTodos_uno {F : Type} (L : BibliotecaFloat F) (x : componente F) :
    serializarTodos L [x] = serializar L x := by
  simp [serializarTodos]

theorem serializarTodos_final {F : Type} (L : BibliotecaFloat F) (xs : List (componente F))
    (x : componente F) :
    serializarTodos L (xs ++ [x]) = serializarTodos L xs ++ serializar L x := by
  simp [serializarTodos]

/-- C1 as amended (round trip): a record `r` whose text fields hold no line
break, and for whose numeric fields `std::stof` accepts the text written, is
appended with `continuarConArchivo` to a path that is absent or empty; loading
the path then leaves exactly `[r']`, where `r'` has the name, kind and status
of `r` and each numeric field is the parse by `std::stof` of the text written
for it. Whatever the vector held before is irrelevant. -/
theorem ida_y_vuelta {F : Type} (L : BibliotecaFloat F) (fs : Sistema) (p : Texto)
    (r r' : componente F) (previos : List (componente F))
    (hw : fs.escritura p = true) (hr : fs.lectura p = true)
    (hfresco : fs.contenido p = none ∨ fs.contenido p = some [])
    (hs : sinSalto r) (hrr : Releido L r r') :
    cargarDesdeArchivo L previos p (continuarConArchivo L r p fs).1 = ⟨[r'], none, []⟩ := by
  have hprevio : fs.previo p = [] := by
    rcases hfresco with h | h <;> simp [Sistema.previo, h]
  rw [continuar_contenido L r p fs hw, hprevio, List.nil_append, ← serializarTodos_uno]
  exact cargar_tras_escribir L fs p [r] [r'] previos hr (by simpa using hs)
    (List.Forall₂.cons hrr List.Forall₂.nil)

/-- Witness of C1 on the sample: the record `capacitor` on an empty disk. -/
theorem ida_y_vuelta_witness :
    sinSalto capacitor ∧ Releido muestra capacitor capacitorLeido ∧
    cargarDesdeArchivo muestra [resistor] ruta
      (continuarConArchivo muestra capacitor ruta discoVacio).1 = ⟨[capacitorLeido], none, []⟩ :=
  have hs : sinSalto capacitor := by unfold sinSalto; decide
  have hrr : Releido muestra capacitor capacitorLeido := ⟨rfl, rfl, rfl, rfl, rfl, rfl⟩
  ⟨hs, hrr, ida_y_vuelta muestra discoVacio ruta capacitor capacitorLeido [resistor] rfl rfl
    (Or.inl rfl) hs hrr⟩

/-- Counterexample to C1 as stated: the record `diminuto` has non-empty text
fields without line break and finite numeric fields; its nominal value is the
subnormal `float` that `solicitarNumero` stores when `1e-40` is typed. Appended
to a fresh path it is written `9.99995e-41`, a text on which `std::stof` throws
`std::out_of_range`: the load ends on that exception with an empty vector, not
with a one-element sequence. -/
theorem ida_y_vuelta_contraejemplo :
    sinSalto diminuto ∧
    (solicitarNumero muestra "Valor nominal del componente: "
        ⟨"1e-40\n".toList, false, false⟩).map (fun r => r.1)
      = some diminuto.valorNominal ∧
    (continuarConArchivo muestra diminuto ruta discoVacio).1.contenido ruta
      = some "Resistor 1k\nResistor\n9.99995e-41\n5\n12.5\nNuevo\n-----\n".toList ∧
    cargarDesdeArchivo muestra [] ruta (continuarConArchivo muestra diminuto ruta discoVacio).1
      = ⟨[], some .out_of_range, []⟩ :=
  ⟨by unfold sinSalto; decide, by decide, by decide, by decide⟩

/-- C2 as amended (append preserves prior content): on a file that holds the
serialisations of the records `rs`, `continuarConArchivo` of `r2` leaves that
text as a prefix and adds the serialisation of `r2` after it; when no text
field holds a line break, loading the path afterwards gives the records of `rs`
followed by `r2`, in that order, each one as it is read back (same name, kind
and status, numeric fields parsed from the text written). -/
theorem continuar_preserva {F : Type} (L : BibliotecaFloat F) (fs : Sistema) (p : Texto)
    (rs rs' : List (componente F)) (r2 r2' : componente F) (previos : List (componente F))
    (hw : fs.escritura p = true) (hr : fs.lectura p = true)
    (hcont : fs.contenido p = some (serializarTodos L rs))
    (hs : ∀ x ∈ rs, sinSalto x) (hs2 : sinSalto r2)
    (hrs : List.Forall₂ (Releido L) rs rs') (hr2 : Releido L r2 r2') :
    (continuarConArchivo L r2 p fs).1.contenido p
        = some (serializarTodos L rs ++ serializar L r2) ∧
      cargarDesdeArchivo L previos p (continuarConArchivo L r2 p fs).1
        = ⟨rs' ++ [r2'], none, []⟩ := by
  have hprevio : fs.previo p = serializarTodos L rs := by simp [Sistema.previo, hcont]
  rw [continuar_contenido L r2 p fs hw, hprevio]
  refine ⟨by simp [Sistema.escribir], ?_⟩
  rw [← serializarTodos_final]
  refine cargar_tras_escribir L fs p (rs ++ [r2]) (rs' ++ [r2']) previos hr ?_ ?_
  · intro x hx
    rcases List.mem_append.mp hx with h | h
    · exact hs x h
    · simpa [List.mem_singleton.mp h] using hs2
  · exact List.rel_append hrs (List.Forall₂.cons hr2 List.Forall₂.nil)

/-- Witness of C2 on the sample: `capacitor` appended after `resistor`. -/
theorem continuar_preserva_witness :
    (continuarConArchivo muestra capacitor ruta
        (discoVacio.escribir ruta (serializarTodos muestra [resistor]))).1.contenido ruta
        = some (serializarTodos muestra [resistor] ++ serializar muestra capacitor) ∧
      cargarDesdeArchivo muestra [] ruta (continuarConArchivo muestra capacitor ruta
        (discoVacio.escribir ruta (serializarTodos muestra [resistor]))).1
        = ⟨[resistor] ++ [capacitorLeido], none, []⟩ :=
  continuar_preserva muestra (discoVacio.escribir ruta (serializarTodos muestra [resistor])) ruta
    [resistor] [resistor] capacitor capacitorLeido [] rfl rfl (by simp [Sistema.escribir])
    (by intro x hx; rw [List.mem_singleton.mp hx]; unfold sinSalto; decide)
    (by unfold sinSalto; decide)
    (List.Forall₂.cons ⟨rfl, rfl, rfl, rfl, rfl, rfl⟩ List.Forall₂.nil)
    ⟨rfl, rfl, rfl, rfl, rfl, rfl⟩

/-- C3 as amended (overwrite truncates): whatever the path held before,
`guardarEnArchivo` of `r2` leaves a file whose whole content is the
serialisation of `r2`; when no text field of `r2` holds a line break, loading
the path afterwards gives the single record `r2` as it is read back (same name,
kind and status, numeric fields parsed from the text written), and nothing of
the prior content. -/
theorem guardar_trunca {F : Type} (L : BibliotecaFloat F) (fs : Sistema) (p : Texto)
    (r2 r2' : componente F) (previos : List (componente F))
    (hw : fs.escritura p = true) (hr : fs.lectura p = true)
    (hs2 : sinSalto r2) (hr2 : Releido L r2 r2') :
    (guardarEnArchivo L r2 p fs).1.contenido p = some (serializar L r2) ∧
      cargarDesdeArchivo L previos p (guardarEnArchivo L r2 p fs).1 = ⟨[r2'], none, []⟩ := by
  rw [guardar_contenido L r2 p fs hw]
  refine ⟨by simp [Sistema.escribir], ?_⟩
  rw [← serializarTodos_uno]
  exact cargar_tras_escribir L fs p [r2] [r2'] previos hr (by simpa using hs2)
    (List.Forall₂.cons hr2 List.Forall₂.nil)

/-- Witness of C3 on the sample: `capacitor` saved over a file that holds `resistor`. -/
theorem guardar_trunca_witness :
    (guardarEnArchivo muestra capacitor ruta
        (discoVacio.escribir ruta (serializar muestra resistor))).1.contenido ruta
        = some (serializar muestra capacitor) ∧
      cargarDesdeArchivo muestra [resistor] ruta (guardarEnArchivo muestra capacitor ruta
        (discoVacio.escribir ruta (serializar muestra resistor))).1
        = ⟨[capacitorLeido], none, []⟩ :=
  guardar_trunca muestra (discoVacio.escribir ruta (serializar muestra resistor)) ruta
    capacitor capacitorLeido [resistor] rfl rfl (by unfold sinSalto; decide)
    ⟨rfl, rfl, rfl, rfl, rfl, rfl⟩

/-- C4 (serialisation format): `guardarEnArchivo` leaves, and
`continuarConArchivo` adds after the existing content, the same text: the name,
the kind, the nominal value, the tolerance, the working voltage, the status and
`-----`, each followed by one line break and nothing else. When the text
fields hold no line break, that text reads back as exactly these seven lines,
the last one being the five characters `-----`. -/
theorem formato_de_siete_lineas {F : Type} (L : BibliotecaFloat F) (fs : Sistema) (p : Texto)
    (x : componente F) (hw : fs.escritura p = true) (hs : sinSalto x) :
    (guardarEnArchivo L x p fs).1.contenido p = some (serializar L x) ∧
    (continuarConArchivo L x p fs).1.contenido p = some (fs.previo p ++ serializar L x) ∧
    serializar L x
      = x.nombreDelComponente ++ '\n' :: (x.tipoDeComponente ++ '\n' ::
          (L.fmt x.valorNominal ++ '\n' :: (L.fmt x.tolerancia ++ '\n' ::
            (L.fmt x.voltajeDeTrabajo ++ '\n' :: (x.estado ++ '\n' ::
              "-----\n".toList))))) ∧
    lineas (serializar L x)
      = [x.nombreDelComponente, x.tipoDeComponente, L.fmt x.valorNominal, L.fmt x.tolerancia,
          L.fmt x.voltajeDeTrabajo, x.estado, "-----".toList] ∧
    "-----".toList.length = 5 := by
  refine ⟨?_, ?_, ?_, ?_, by decide⟩
  · rw [guardar_contenido L x p fs hw]; simp [Sistema.escribir]
  · rw [continuar_contenido L x p fs hw]; simp [Sistema.escribir]
  · simp [serializar, lineasDeRegistro, separador]
  · have h := lineas_serializar L x hs []
    simp only [List.append_nil] at h
    rw [h]
    simp [lineasDeRegistro, lineas, lineasDesde, separador]

/-- Witness of C4 on the sample: the record `resistor` on an empty disk. -/
theorem formato_de_siete_lineas_witness :
    lineas (serializar muestra resistor)
      = ["Resistor 1k".toList, "Resistor".toList, "1000".toList, "5".toList, "12.5".toList,
          "Nuevo".toList, "-----".toList] :=
  (formato_de_siete_lineas muestra discoVacio ruta resistor rfl
    (by unfold sinSalto; decide)).2.2.2.1

/-- C9 (load replaces): when the file opens, what `cargarDesdeArchivo` leaves
depends only on the text of the file: two calls that read the same text leave
the same vector (and the same exception, if any), whatever each vector held
before, so nothing held before remains. -/
theorem cargar_reemplaza {F : Type} (L : BibliotecaFloat F) (fs1 fs2 : Sistema)
    (p1 p2 t : Texto) (previos1 previos2 : List (componente F))
    (h1 : fs1.abrirLectura p1 = some t) (h2 : fs2.abrirLectura p2 = some t) :
    cargarDesdeArchivo L previos1 p1 fs1 = cargarDesdeArchivo L previos2 p2 fs2 := by
  simp [cargarDesdeArchivo, h1, h2]

/-- Witness of C9 on the sample: a vector that holds `capacitor` and an empty
vector, loaded from a file that holds `resistor`. -/
theorem cargar_reemplaza_witness :
    cargarDesdeArchivo muestra [capacitor] ruta
        (discoVacio.escribir ruta (serializar muestra resistor))
      = cargarDesdeArchivo muestra [] ruta
        (discoVacio.escribir ruta (serializar muestra resistor)) :=
  cargar_reemplaza muestra _ _ ruta ruta (serializar muestra resistor) [capacitor] [] rfl rfl

/-- C10 (load fails soft): when the path cannot be opened for reading,
`cargarDesdeArchivo` prints `No se pudo abrir el archivo.`, throws nothing and
leaves the vector as it was. -/
theorem cargar_sin_abrir {F : Type} (L : BibliotecaFloat F) (fs : Sistema) (p : Texto)
    (previos : List (componente F)) (h : fs.abrirLectura p = none) :
    cargarDesdeArchivo L previos p fs
      = ⟨previos, none, [.literal "No se pudo abrir el archivo.\n"]⟩ := by
  simp [cargarDesdeArchivo, h]

/-- Witness of C10 on the sample: a path that does not exist. -/
theorem cargar_sin_abrir_witness :
    cargarDesdeArchivo muestra [resistor] ruta discoVacio
      = ⟨[resistor], none, [.literal "No se pudo abrir el archivo.\n"]⟩ :=
  cargar_sin_abrir muestra discoVacio ruta [resistor] rfl

/-! ### Search -/

theorem find_isSome_iff (s q : Texto) : (find s q).isSome = true ↔ q <:+: s := by
  induction s with
  | nil => by_cases h : q = [] <;> simp [find, h]
  | cons ch s ih =>
    rw [List.infix_cons_iff, ← ih]
    by_cases h : q <+: ch :: s
    · simp [find, h]
    · simp [find, h]

theorem recorrer_eq {F : Type} (condicion : componente F → Bool)
    (registros : List (componente F)) (encontrado : Bool) (out : List (Emision F)) :
    recorrer condicion registros encontrado out
      = (encontrado || registros.any condicion,
          out ++ (registros.filter condicion).flatMap mostrarComponente) := by
  induction registros generalizing encontrado out with
  | nil => simp [recorrer]
  | cons c resto ih =>
    by_cases h : condicion c = true
    · simp [recorrer, h, ih]
    · simp [recorrer, h, ih]

theorem buscar_eq {F : Type} (condicion : componente F → Bool) (satisface : componente F → Prop)
    [DecidablePred satisface] (hcs : ∀ c, condicion c = true ↔ satisface c)
    (registros : List (componente F)) (noEncontrado : String) (out : List (Emision F)) :
    buscar condicion registros noEncontrado out
      = out ++ resultadoDeBusqueda satisface registros noEncontrado := by
  have hfun : condicion = fun c => decide (satisface c) := by
    funext c
    by_cases h : satisface c
    · simp [h, (hcs c).mpr h]
    · have : condicion c = false := by
        cases hc : condicion c
        · rfl
        · exact absurd ((hcs c).mp hc) h
      simp [h, this]
  subst hfun
  simp only [buscar, recorrer_eq, resultadoDeBusqueda, Bool.false_or]
  by_cases h : registros.any (fun c => decide (satisface c)) = true
  · have hne : (registros.filter (fun c => decide (satisface c))).isEmpty = false := by
      obtain ⟨c, hc, hs⟩ := List.any_eq_true.mp h
      cases hf : registros.filter (fun c => decide (satisface c)) with
      | nil =>
        have : c ∈ registros.filter (fun c => decide (satisface c)) :=
          List.mem_filter.mpr ⟨hc, hs⟩
        simp [hf] at this
      | cons _ _ => rfl
    simp [h, hne]
  · have hnone : registros.filter (fun c => decide (satisface c)) = [] := by
      apply List.filter_eq_nil_iff.mpr
      intro c hc hs
      exact h (List.any_eq_true.mpr ⟨c, hc, hs⟩)
    simp [h, hnone]

/-- C6 (substring search): once the query `q` was read, `buscarPorNombre`,
`buscarPorTipo` and `buscarPorEstado` show exactly the records whose name, kind
or status contains `q` as a contiguous run of characters (character for
character, so case matters), all of them and in the order of the vector. -/
theorem busqueda_por_subcadena {F : Type} (registros : List (componente F))
    (cin cin' : Cin) (q : Texto) (outN outT outE : List (Emision F))
    (hN : solicitarTexto "Ingrese el nombre del componente que desea encontrar \n" true cin
      = some (q, cin', outN))
    (hT : solicitarTexto "Ingrese el tipo del componente que desea encontrar \n" true cin
      = some (q, cin', outT))
    (hE : solicitarTexto "Ingrese el estado del componente que desea encontrar \n" true cin
      = some (q, cin', outE)) :
    buscarPorNombre registros cin
      = some (cin', outN ++ resultadoDeBusqueda (fun c => q <:+: c.nombreDelComponente) registros
          "No se encontró ningún componente con ese nombre.\n") ∧
    buscarPorTipo registros cin
      = some (cin', outT ++ resultadoDeBusqueda (fun c => q <:+: c.tipoDeComponente) registros
          "No se encontró ningún componente de ese tipo.\n") ∧
    buscarPorEstado registros cin
      = some (cin', outE ++ resultadoDeBusqueda (fun c => q <:+: c.estado) registros
          "No se encontró ningún componente en ese estado.\n") := by
  refine ⟨?_, ?_, ?_⟩
  · simp only [buscarPorNombre, hN, Option.bind_eq_bind, Option.some_bind]
    rw [buscar_eq _ (fun c => q <:+: c.nombreDelComponente) (fun c => find_isSome_iff _ _)]
  · simp only [buscarPorTipo, hT, Option.bind_eq_bind, Option.some_bind]
    rw [buscar_eq _ (fun c => q <:+: c.tipoDeComponente) (fun c => find_isSome_iff _ _)]
  · simp only [buscarPorEstado, hE, Option.bind_eq_bind, Option.some_bind]
    rw [buscar_eq _ (fun c => q <:+: c.estado) (fun c => find_isSome_iff _ _)]

/-- C7 (exact numeric search): once the query `v` was read,
`buscarPorValorNominal`, `buscarPorTolerancia` and `buscarPorVoltaje` show
exactly the records whose field compares equal to `v` with `operator==`, in
the order of the vector; a record whose field does not compare equal is not
shown. -/
theorem busqueda_numerica_exacta {F : Type} (L : BibliotecaFloat F)
    (registros : List (componente F)) (cin cin' : Cin) (v : F)
    (outN outT outV : List (Emision F))
    (hN : solicitarNumero L "Ingrese el valor nominal del componente que desea encontrar \n" cin
      = some (v, cin', outN))
    (hT : solicitarNumero L "Ingrese la tolerancia del componente que desea encontrar \n" cin
      = some (v, cin', outT))
    (hV : solicitarNumero L "Ingrese el voltaje del componente que desea encontrar \n" cin
      = some (v, cin', outV)) :
    buscarPorValorNominal L registros cin
      = some (cin', outN ++ resultadoDeBusqueda (fun c => L.igual c.valorNominal v = true)
          registros "No se encontró ningún componente con ese valor nominal.\n") ∧
    buscarPorTolerancia L registros cin
      = some (cin', outT ++ resultadoDeBusqueda (fun c => L.igual c.tolerancia v = true)
          registros "No se encontró ningún componente con esa tolerancia.\n") ∧
    buscarPorVoltaje L registros cin
      = some (cin', outV ++ resultadoDeBusqueda (fun c => L.igual c.voltajeDeTrabajo v = true)
          registros "No se encontró ningún componente con ese voltaje.\n") := by
  refine ⟨?_, ?_, ?_⟩
  · simp only [buscarPorValorNominal, hN, Option.bind_eq_bind, Option.some_bind]
    rw [buscar_eq _ (fun c => L.igual c.valorNominal v = true) (fun c => Iff.rfl)]
  · simp only [buscarPorTolerancia, hT, Option.bind_eq_bind, Option.some_bind]
    rw [buscar_eq _ (fun c => L.igual c.tolerancia v = true) (fun c => Iff.rfl)]
  · simp only [buscarPorVoltaje, hV, Option.bind_eq_bind, Option.some_bind]
    rw [buscar_eq _ (fun c => L.igual c.voltajeDeTrabajo v = true) (fun c => Iff.rfl)]

/-- Witness of C6 on the sample: the records named `Resistor 1k` and
`resistor 2k`; the query `Res` shows the first only, the query `k` shows both
in the order of the vector. -/
theorem busqueda_por_subcadena_witness :
    buscarPorNombre [resistor, capacitor] ⟨"Res\n".toList, false, false⟩
      = some (⟨[], false, false⟩,
          [.literal "Ingrese el nombre del componente que desea encontrar \n"]
            ++ mostrarComponente resistor) ∧
    buscarPorNombre [resistor, capacitor] ⟨"k\n".toList, false, false⟩
      = some (⟨[], false, false⟩,
          [.literal "Ingrese el nombre del componente que desea encontrar \n"]
            ++ mostrarComponente resistor ++ mostrarComponente capacitor) :=
  ⟨(busqueda_por_subcadena [resistor, capacitor] ⟨"Res\n".toList, false, false⟩
      ⟨[], false, false⟩ "Res".toList _ _ _ rfl rfl rfl).1.trans
      (by decide),
   (busqueda_por_subcadena [resistor, capacitor] ⟨"k\n".toList, false, false⟩
      ⟨[], false, false⟩ "k".toList _ _ _ rfl rfl rfl).1.trans
      (by decide)⟩

/-- Witness of C7 on the sample: a record of tolerance 5 is not shown for the
query 5.0001, and is shown for the query 5. -/
theorem busqueda_numerica_exacta_witness :
    buscarPorTolerancia muestra [resistor] ⟨"5.0001\n".toList, false, false⟩
      = some (⟨[], false, false⟩,
          [.literal "Ingrese la tolerancia del componente que desea encontrar \n",
           .literal "No se encontró ningún componente con esa tolerancia.\n"]) ∧
    buscarPorTolerancia muestra [resistor] ⟨"5\n".toList, false, false⟩
      = some (⟨[], false, false⟩,
          [.literal "Ingrese la tolerancia del componente que desea encontrar \n"]
            ++ mostrarComponente resistor) :=
  ⟨(busqueda_numerica_exacta muestra [resistor] ⟨"5.0001\n".toList, false, false⟩
      ⟨[], false, false⟩ .v5_0001 _ _ _ rfl rfl rfl).2.1.trans
      (by decide),
   (busqueda_numerica_exacta muestra [resistor] ⟨"5\n".toList, false, false⟩
      ⟨[], false, false⟩ .v5 _ _ _ rfl rfl rfl).2.1.trans
      (by decide)⟩

theorem solicitarTextoDesde_salida {F : Type} (mensaje : String) (permitirNumeros : Bool)
    (n : Nat) (cin : Cin) (entrada : Texto) (out : List (Emision F))
    (t : Texto) (cin' : Cin) (out' : List (Emision F))
    (h : solicitarTextoDesde mensaje permitirNumeros n cin entrada out = some (t, cin', out')) :
    ∀ x ∈ out', x ∈ out ∨ x = .literal mensaje ∨
      x = .literal "Error: No puede estar vacío.\n" ∨
      x = .literal "Error: No se permiten números en este campo.\n" := by
  induction n generalizing cin entrada out with
  | zero => simp [solicitarTextoDesde] at h
  | succ n ih =>
    simp only [solicitarTextoDesde] at h
    split at h
    · intro x hx
      rcases ih _ _ _ h x hx with h1 | h1 | h1 | h1
      · simp only [List.mem_append, List.mem_singleton] at h1
        tauto
      all_goals tauto
    · split at h
      · intro x hx
        rcases ih _ _ _ h x hx with h1 | h1 | h1 | h1
        · simp only [List.mem_append, List.mem_singleton] at h1
          tauto
        all_goals tauto
      · simp only [Option.some.injEq, Prod.mk.injEq] at h
        obtain ⟨_, _, rfl⟩ := h
        intro x hx
        simp only [List.mem_append, List.mem_singleton] at hx
        tauto

theorem solicitarNumeroDesde_salida {F : Type} (L : BibliotecaFloat F) (mensaje : String)
    (n : Nat) (cin : Cin) (valor : F) (out : List (Emision F))
    (v : F) (cin' : Cin) (out' : List (Emision F))
    (h : solicitarNumeroDesde L mensaje n cin valor out = some (v, cin', out')) :
    ∀ x ∈ out', x ∈ out ∨ x = .literal mensaje ∨
      x = .literal "Error: Debe ingresar un número válido.\n" := by
  induction n generalizing cin valor out with
  | zero => simp [solicitarNumeroDesde] at h
  | succ n ih =>
    simp only [solicitarNumeroDesde] at h
    split at h
    · intro x hx
      rcases ih _ _ _ h x hx with h1 | h1 | h1
      · simp only [List.mem_append, List.mem_singleton] at h1
        tauto
      all_goals tauto
    · simp only [Option.some.injEq, Prod.mk.injEq] at h
      obtain ⟨_, _, rfl⟩ := h
      intro x hx
      simp only [List.mem_append, List.mem_singleton] at hx
      tauto

theorem informa_buscar {F : Type} (satisface : componente F → Prop) [DecidablePred satisface]
    (registros : List (componente F)) (noEncontrado : String) (out : List (Emision F))
    (hout : Emision.literal noEncontrado ∉ out)
    (hmsg : ∀ c : componente F, Emision.literal noEncontrado ∉ mostrarComponente c) :
    (Emision.literal noEncontrado ∈ out ++ resultadoDeBusqueda satisface registros noEncontrado
        ↔ ∀ c ∈ registros, ¬ satisface c) ∧
    ((∀ c ∈ registros, ¬ satisface c)
        → resultadoDeBusqueda satisface registros noEncontrado = [.literal noEncontrado]) := by
  have hnil : registros.filter (fun c => decide (satisface c)) = []
      ↔ ∀ c ∈ registros, ¬ satisface c := by
    simp [List.filter_eq_nil_iff]
  constructor
  · rw [← hnil]
    cases hf : registros.filter (fun c => decide (satisface c)) with
    | nil => simp [resultadoDeBusqueda, hf]
    | cons a l =>
      simp only [resultadoDeBusqueda, hf, List.isEmpty_cons, Bool.false_eq_true, if_false,
        List.mem_append, List.mem_flatMap, reduceCtorEq, iff_false, not_or, not_exists, not_and]
      exact ⟨hout, fun c _ => hmsg c⟩
  · intro h
    simp [resultadoDeBusqueda, hnil.mpr h]

theorem informa_texto {F : Type} (condicion : componente F → Bool)
    (satisface : componente F → Prop) [DecidablePred satisface]
    (hcs : ∀ c, condicion c = true ↔ satisface c) (registros : List (componente F))
    (mensaje noEncontrado : String) (cin cin' : Cin) (q : Texto) (out : List (Emision F))
    (h : solicitarTexto mensaje true cin = some (q, cin', out))
    (h1 : noEncontrado ≠ mensaje) (h2 : noEncontrado ≠ "Error: No puede estar vacío.\n")
    (h3 : noEncontrado ≠ "Error: No se permiten números en este campo.\n")
    (hmsg : ∀ c : componente F, Emision.literal noEncontrado ∉ mostrarComponente c) :
    InformaSinResultado (some (cin', buscar condicion registros noEncontrado out)) cin' out
      noEncontrado (∀ c ∈ registros, ¬ satisface c) := by
  have hout : Emision.literal noEncontrado ∉ out := by
    intro hx
    rcases solicitarTextoDesde_salida _ _ _ _ _ _ _ _ _ h _ hx with h0 | h0 | h0 | h0
    · simp at h0
    · exact h1 (Emision.literal.inj h0)
    · exact h2 (Emision.literal.inj h0)
    · exact h3 (Emision.literal.inj h0)
  refine ⟨resultadoDeBusqueda satisface registros noEncontrado, ?_, ?_⟩
  · rw [buscar_eq condicion satisface hcs]
  · exact informa_buscar satisface registros noEncontrado out hout hmsg

theorem informa_numero {F : Type} (L : BibliotecaFloat F) (condicion : componente F → Bool)
    (satisface : componente F → Prop) [DecidablePred satisface]
    (hcs : ∀ c, condicion c = true ↔ satisface c) (registros : List (componente F))
    (mensaje noEncontrado : String) (cin cin' : Cin) (v : F) (out : List (Emision F))
    (h : solicitarNumero L mensaje cin = some (v, cin', out))
    (h1 : noEncontrado ≠ mensaje)
    (h2 : noEncontrado ≠ "Error: Debe ingresar un número válido.\n")
    (hmsg : ∀ c : componente F, Emision.literal noEncontrado ∉ mostrarComponente c) :
    InformaSinResultado (some (cin', buscar condicion registros noEncontrado out)) cin' out
      noEncontrado (∀ c ∈ registros, ¬ satisface c) := by
  have hout : Emision.literal noEncontrado ∉ out := by
    intro hx
    rcases solicitarNumeroDesde_salida _ _ _ _ _ _ _ _ _ h _ hx with h0 | h0 | h0
    · simp at h0
    · exact h1 (Emision.literal.inj h0)
    · exact h2 (Emision.literal.inj h0)
  refine ⟨resultadoDeBusqueda satisface registros noEncontrado, ?_, ?_⟩
  · rw [buscar_eq condicion satisface hcs]
  · exact informa_buscar satisface registros noEncontrado out hout hmsg

/-- C8 (empty search result): in each of the six search functions, once the
query was read, the call returns; its "not found" message is printed exactly
when no record of the vector satisfies the query, and then it is all the search
prints, so no record is shown. -/
theorem resultado_vacio_informado {F : Type} (L : BibliotecaFloat F)
    (registros : List (componente F)) (cinT cinT' cinN cinN' : Cin) (q : Texto) (v : F)
    (oNombre oTipo oEstado oValor oTol oVolt : List (Emision F))
    (hNombre : solicitarTexto "Ingrese el nombre del componente que desea encontrar \n" true
      cinT = some (q, cinT', oNombre))
    (hTipo : solicitarTexto "Ingrese el tipo del componente que desea encontrar \n" true
      cinT = some (q, cinT', oTipo))
    (hEstado : solicitarTexto "Ingrese el estado del componente que desea encontrar \n" true
      cinT = some (q, cinT', oEstado))
    (hValor : solicitarNumero L
      "Ingrese el valor nominal del componente que desea encontrar \n" cinN
      = some (v, cinN', oValor))
    (hTol : solicitarNumero L "Ingrese la tolerancia del componente que desea encontrar \n"
      cinN = some (v, cinN', oTol))
    (hVolt : solicitarNumero L "Ingrese el voltaje del componente que desea encontrar \n"
      cinN = some (v, cinN', oVolt)) :
    InformaSinResultado (buscarPorNombre registros cinT) cinT' oNombre
      "No se encontró ningún componente con ese nombre.\n"
      (∀ c ∈ registros, ¬ q <:+: c.nombreDelComponente) ∧
    InformaSinResultado (buscarPorTipo registros cinT) cinT' oTipo
      "No se encontró ningún componente de ese tipo.\n"
      (∀ c ∈ registros, ¬ q <:+: c.tipoDeComponente) ∧
    InformaSinResultado (buscarPorValorNominal L registros cinN) cinN' oValor
      "No se encontró ningún componente con ese valor nominal.\n"
      (∀ c ∈ registros, ¬ L.igual c.valorNominal v = true) ∧
    InformaSinResultado (buscarPorTolerancia L registros cinN) cinN' oTol
      "No se encontró ningún componente con esa tolerancia.\n"
      (∀ c ∈ registros, ¬ L.igual c.tolerancia v = true) ∧
    InformaSinResultado (buscarPorVoltaje L registros cinN) cinN' oVolt
      "No se encontró ningún componente con ese voltaje.\n"
      (∀ c ∈ registros, ¬ L.igual c.voltajeDeTrabajo v = true) ∧
    InformaSinResultado (buscarPorEstado registros cinT) cinT' oEstado
      "No se encontró ningún componente en ese estado.\n"
      (∀ c ∈ registros, ¬ q <:+: c.estado) := by
  refine ⟨?_, ?_, ?_, ?_, ?_, ?_⟩
  · simp only [buscarPorNombre, hNombre, Option.bind_eq_bind, Option.some_bind]
    exact informa_texto _ (fun c => q <:+: c.nombreDelComponente)
      (fun c => find_isSome_iff _ _) registros _ _ cinT cinT' q oNombre hNombre
      (by decide) (by decide) (by decide) (by intro c; simp [mostrarComponente])
  · simp only [buscarPorTipo, hTipo, Option.bind_eq_bind, Option.some_bind]
    exact informa_texto _ (fun c => q <:+: c.tipoDeComponente)
      (fun c => find_isSome_iff _ _) registros _ _ cinT cinT' q oTipo hTipo
      (by decide) (by decide) (by decide) (by intro c; simp [mostrarComponente])
  · simp only [buscarPorValorNominal, hValor, Option.bind_eq_bind, Option.some_bind]
    exact informa_numero L _ (fun c => L.igual c.valorNominal v = true)
      (fun c => Iff.rfl) registros _ _ cinN cinN' v oValor hValor
      (by decide) (by decide) (by intro c; simp [mostrarComponente])
  · simp only [buscarPorTolerancia, hTol, Option.bind_eq_bind, Option.some_bind]
    exact informa_numero L _ (fun c => L.igual c.tolerancia v = true)
      (fun c => Iff.rfl) registros _ _ cinN cinN' v oTol hTol
      (by decide) (by decide) (by intro c; simp [mostrarComponente])
  · simp only [buscarPorVoltaje, hVolt, Option.bind_eq_bind, Option.some_bind]
    exact informa_numero L _ (fun c => L.igual c.voltajeDeTrabajo v = true)
      (fun c => Iff.rfl) registros _ _ cinN cinN' v oVolt hVolt
      (by decide) (by decide) (by intro c; simp [mostrarComponente])
  · simp only [buscarPorEstado, hEstado, Option.bind_eq_bind, Option.some_bind]
    exact informa_texto _ (fun c => q <:+: c.estado)
      (fun c => find_isSome_iff _ _) registros _ _ cinT cinT' q oEstado hEstado
      (by decide) (by decide) (by decide) (by intro c; simp [mostrarComponente])

/-- Witness of C8 on the sample: the vector holds `resistor`; the text query is
`zz` and the numeric query is 0, which no field of `resistor` satisfies. -/
theorem resultado_vacio_informado_witness :
    InformaSinResultado
      (buscarPorNombre [resistor] ⟨"zz\n".toList, false, false⟩) ⟨[], false, false⟩
      [.literal "Ingrese el nombre del componente que desea encontrar \n"]
      "No se encontró ningún componente con ese nombre.\n"
      (∀ c ∈ [resistor], ¬ "zz".toList <:+: c.nombreDelComponente) ∧
    InformaSinResultado
      (buscarPorValorNominal muestra [resistor] ⟨"0\n".toList, false, false⟩)
      ⟨[], false, false⟩
      [.literal "Ingrese el valor nominal del componente que desea encontrar \n"]
      "No se encontró ningún componente con ese valor nominal.\n"
      (∀ c ∈ [resistor], ¬ muestra.igual c.valorNominal .v0 = true) :=
  have h := resultado_vacio_informado muestra [resistor] ⟨"zz\n".toList, false, false⟩
    ⟨[], false, false⟩ ⟨"0\n".toList, false, false⟩ ⟨[], false, false⟩ "zz".toList .v0
    _ _ _ _ _ _ rfl rfl rfl rfl rfl rfl
  ⟨h.1, h.2.2.1⟩

/-! ### Registration -/

/-- Counterexample to C2 as stated: `capacitor`, of nominal value 1234567, is
appended to a file that holds `resistor`; loading gives `resistor` and a record
of nominal value 1234570, not `[resistor, capacitor]`. And a record whose name
holds a line break, appended to the same file, makes the load end on
`std::invalid_argument` after `resistor`. -/
theorem continuar_preserva_contraejemplo :
    cargarDesdeArchivo muestra [] ruta (continuarConArchivo muestra capacitor ruta
        (discoVacio.escribir ruta (serializar muestra resistor))).1
      ≠ ⟨[resistor, capacitor], none, []⟩ ∧
    cargarDesdeArchivo muestra [] ruta (continuarConArchivo muestra partido ruta
        (discoVacio.escribir ruta (serializar muestra resistor))).1
      = ⟨[resistor], some .invalid_argument, []⟩ := by
  decide

/-- Counterexample to C3 as stated: `capacitor`, of nominal value 1234567, is
saved over a file that holds `resistor`; loading gives a record of nominal value
1234570, not `[capacitor]`. And for a record whose name holds a line break the
load ends on `std::invalid_argument` with nothing loaded. -/
theorem guardar_trunca_contraejemplo :
    cargarDesdeArchivo muestra [] ruta (guardarEnArchivo muestra capacitor ruta
        (discoVacio.escribir ruta (serializar muestra resistor))).1
      ≠ ⟨[capacitor], none, []⟩ ∧
    cargarDesdeArchivo muestra [] ruta (guardarEnArchivo muestra partido ruta
        (discoVacio.escribir ruta (serializar muestra resistor))).1
      = ⟨[], some .invalid_argument, []⟩ := by
  decide

/-! ### The reading loop: offsets and exceptions -/

theorem cargar_error_previos {F : Type} (L : BibliotecaFloat F) (a b : List (componente F))
    (p : Texto) (fs : Sistema) :
    (cargarDesdeArchivo L a p fs).error = (cargarDesdeArchivo L b p fs).error := by
  unfold cargarDesdeArchivo
  cases fs.abrirLectura p <;> rfl

theorem mainDesde_fin {F : Type} (L : BibliotecaFloat F) (indeterminado : Int) (n : Nat)
    (est : Estado F) (fin : FinDeProceso) (est' : Estado F)
    (h : mainDesde L indeterminado n est = some (fin, est')) :
    (fin = .retorno 0 ∧ est'.cout.getLast? = some (.literal "Vuelva pronto \n")) ∨
    (∃ e, fin = .terminate e ∧
      (cargarDesdeArchivo L [] est'.nombreArchivo est'.fs).error = some e) := by
  induction n generalizing est with
  | zero => simp [mainDesde] at h
  | succ n ih =>
    simp only [mainDesde] at h
    split at h
    · exact absurd h (by simp)
    · split at h
      · split at h
        · exact absurd h (by simp)
        · exact ih _ h
      · split at h
        · split at h
          · exact absurd h (by simp)
          · exact ih _ h
        · split at h
          · exact ih _ h
          · split at h
            · exact ih _ h
            · split at h
              · split at h
                · next e he =>
                  simp only [Option.some.injEq, Prod.mk.injEq] at h
                  obtain ⟨rfl, rfl⟩ := h
                  exact Or.inr ⟨e, rfl, by rw [cargar_error_previos L [] _, he]⟩
                · split at h
                  · exact absurd h (by simp)
                  · exact ih _ h
              · split at h
                · simp only [Option.some.injEq, Prod.mk.injEq] at h
                  obtain ⟨rfl, rfl⟩ := h
                  exact Or.inl ⟨rfl, by simp⟩
                · exact ih _ h

/-- C13 as amended (what ends the process): when `main` ends, either it
returned 0 right after printing `Vuelva pronto` (option 6), or
`cargarDesdeArchivo`, called for a search, threw an exception of `std::stof`
that nothing catches: the file named last is one whose load throws it. No
other operation ends the process. -/
theorem fin_del_proceso {F : Type} (L : BibliotecaFloat F) (indeterminado : Int) (cin : Cin)
    (fs : Sistema) (fin : FinDeProceso) (est : Estado F)
    (h : main L indeterminado cin fs = some (fin, est)) :
    (fin = .retorno 0 ∧ est.cout.getLast? = some (.literal "Vuelva pronto \n")) ∨
    (∃ e, fin = .terminate e ∧
      (cargarDesdeArchivo L [] est.nombreArchivo est.fs).error = some e) :=
  mainDesde_fin L indeterminado _ _ fin est h

/-- Witness of C13 on the sample: the user chooses 6 at once. -/
theorem fin_del_proceso_witness :
    ∃ fin est, main muestra 0 ⟨"6\n".toList, false, false⟩ discoVacio = some (fin, est) ∧
      ((fin = .retorno 0 ∧ est.cout.getLast? = some (.literal "Vuelva pronto \n")) ∨
       (∃ e, fin = .terminate e ∧
        (cargarDesdeArchivo muestra [] est.nombreArchivo est.fs).error = some e)) :=
  have hs : (main muestra 0 ⟨"6\n".toList, false, false⟩ discoVacio).isSome = true := by decide
  have h := (Option.some_get hs).symm
  ⟨((main muestra 0 ⟨"6\n".toList, false, false⟩ discoVacio).get hs).1,
   ((main muestra 0 ⟨"6\n".toList, false, false⟩ discoVacio).get hs).2, h,
   fin_del_proceso muestra 0 _ discoVacio _ _ h⟩

/-- Counterexample to C13 as stated: the user chooses 5 and names `malo.txt`,
whose third line is `xyz`; the process ends on `std::invalid_argument` and the
rest of the input, the exit option included, is never read. -/
theorem fin_del_proceso_contraejemplo :
    (main muestra 0 ⟨"5\nmalo.txt\n1\nRes\n6\n".toList, false, false⟩ discoMalo).map
        (fun r => (r.1, r.2.cin.buf))
      = some (.terminate .invalid_argument, "1\nRes\n6\n".toList) := by
  decide

/-- C14, the code at the failing input: the status `Usado2` is accepted by
`registroDeComponentes`, which calls `solicitarTexto` with `permitirNumeros`
left at `true`; the record added has a digit in its status and the message
that refuses digits is not printed. -/
theorem estado_con_digitos :
    (registroDeComponentes muestra [] cinEstadoConDigitos).map
        (fun r => (r.1.map (fun c => (c.estado, c.estado.any Char.isDigit)),
          decide (Emision.literal "Error: No se permiten números en este campo.\n" ∈ r.2.2)))
      = some ([("Usado2".toList, true)], false) := by
  decide

/-- C18, the code at the failing input: `componentes.txt` holds `resistor`. A
first search loads it; a second search names `noexiste.txt`, which does not
open. From the message of failure on, `main` still shows the menu of
parameters, asks for the name to look for and shows `resistor`, the record of
the file loaded before. -/
theorem busqueda_tras_fallo :
    (main muestra 0 cinBusquedaFallida discoConResistor).map
        (fun r => (r.1, r.2.cout.dropWhile
          (fun e => decide (e ≠ Emision.literal "No se pudo abrir el archivo.\n"))))
      = some (.retorno 0,
          [.literal "No se pudo abrir el archivo.\n"] ++ menuParametro
            ++ [.literal "Ingrese el nombre del componente que desea encontrar \n"]
            ++ mostrarComponente resistor ++ mostrarMenu
            ++ [.literal "Vuelva pronto \n"]) := by
  decide

/-- C20, the code at the failing input: after the session `cinSesion` in
overwrite mode the vector holds the two records entered; and a call in
continuation mode on a file that does not exist returns with the vector as it
was, here `[resistor]`. -/
theorem registros_tras_registro :
    (iniciarRegistro muestra [] [] true cinSesion discoVacio).map (fun s => s.registros)
      = some [resistor, capacitor] ∧
    (iniciarRegistro muestra [resistor] [] false ⟨"\nnoexiste.txt\n".toList, false, false⟩
        discoVacio).map (fun s => s.registros)
      = some [resistor] := by
  decide

theorem solicitarTextoDesde_no_vacio {F : Type} (mensaje : String) (permitirNumeros : Bool)
    (n : Nat) (cin : Cin) (entrada : Texto) (out : List (Emision F))
    (t : Texto) (cin' : Cin) (out' : List (Emision F))
    (h : solicitarTextoDesde mensaje permitirNumeros n cin entrada out = some (t, cin', out')) :
    t ≠ [] := by
  induction n generalizing cin entrada out with
  | zero => simp [solicitarTextoDesde] at h
  | succ n ih =>
    simp only [solicitarTextoDesde] at h
    split at h
    · exact ih _ _ _ h
    · next hne =>
      split at h
      · exact ih _ _ _ h
      · simp only [Option.some.injEq, Prod.mk.injEq] at h
        obtain ⟨rfl, _, _⟩ := h
        exact hne

theorem registroDeComponentes_no_vacio {F : Type} (L : BibliotecaFloat F)
    (registros : List (componente F)) (cin : Cin)
    (r : List (componente F) × Cin × List (Emision F))
    (h : registroDeComponentes L registros cin = some r) :
    ∃ x, r.1 = registros ++ [x] ∧ camposNoVacios x := by
  simp only [registroDeComponentes, Option.bind_eq_bind, Option.bind_eq_some] at h
  obtain ⟨nombre, hn, tipo, ht, valor, _, tol, _, volt, _, estado, he, h⟩ := h
  simp only [Option.some.injEq] at h
  subst h
  exact ⟨_, rfl, solicitarTextoDesde_no_vacio _ _ _ _ _ _ _ _ _ hn,
    solicitarTextoDesde_no_vacio _ _ _ _ _ _ _ _ _ ht,
    solicitarTextoDesde_no_vacio _ _ _ _ _ _ _ _ _ he⟩

theorem releidos_no_vacios {F : Type} (L : BibliotecaFloat F) (xs ys : List (componente F))
    (hxy : List.Forall₂ (Releido L) xs ys) (hs : ∀ x ∈ xs, camposNoVacios x) :
    ∀ y ∈ ys, camposNoVacios y := by
  induction hxy with
  | nil => simp
  | @cons x y xs ys hxy _ ih =>
    intro z hz
    rcases List.mem_cons.mp hz with rfl | hz
    · obtain ⟨h1, h2, _, _, _, h6⟩ := hxy
      obtain ⟨g1, g2, g3⟩ := hs x (by simp)
      exact ⟨by rw [h1]; exact g1, by rw [h2]; exact g2, by rw [h6]; exact g3⟩
    · exact ih (fun w hw => hs w (by simp [hw])) z hz

/-- C15 as amended (non-empty fields): the record that `registroDeComponentes`
adds has a non-empty name, kind and status; and a load from a file that holds
the serialisations of records with non-empty text fields (without line break,
numeric texts accepted by `std::stof`) leaves only records with non-empty name,
kind and status. -/
theorem campos_no_vacios {F : Type} (L : BibliotecaFloat F) (registros : List (componente F))
    (cin : Cin) (r : List (componente F) × Cin × List (Emision F))
    (fs : Sistema) (p : Texto) (xs ys previos : List (componente F))
    (hreg : registroDeComponentes L registros cin = some r)
    (hfile : fs.abrirLectura p = some (serializarTodos L xs))
    (hs : ∀ x ∈ xs, sinSalto x) (hv : ∀ x ∈ xs, camposNoVacios x)
    (hxy : List.Forall₂ (Releido L) xs ys) :
    (∃ x, r.1 = registros ++ [x] ∧ camposNoVacios x) ∧
    (∀ y ∈ (cargarDesdeArchivo L previos p fs).registros, camposNoVacios y) := by
  refine ⟨registroDeComponentes_no_vacio L registros cin r hreg, ?_⟩
  rw [cargar_serializados L fs p xs ys previos hfile hs hxy]
  exact releidos_no_vacios L xs ys hxy hv

/-- Witness of C15 on the sample: `resistor` is registered from the keyboard,
and `componentes.txt`, which holds `resistor`, is loaded. -/
theorem campos_no_vacios_witness :
    (∃ x, [capacitor, resistor] = [capacitor] ++ [x] ∧ camposNoVacios x) ∧
    (∀ y ∈ (cargarDesdeArchivo muestra [capacitor] ruta discoConResistor).registros,
      camposNoVacios y) :=
  campos_no_vacios muestra [capacitor]
    ⟨"Resistor 1k\nResistor\n1000\n5\n12.5\nNuevo\n".toList, false, false⟩
    ([capacitor, resistor], ⟨[], false, false⟩, _) discoConResistor ruta [resistor] [resistor]
    [capacitor] rfl rfl
    (by intro x hx; rw [List.mem_singleton.mp hx]; unfold sinSalto; decide)
    (by intro x hx; rw [List.mem_singleton.mp hx]; unfold camposNoVacios; decide)
    (List.Forall₂.cons ⟨rfl, rfl, rfl, rfl, rfl, rfl⟩ List.Forall₂.nil)

/-- Counterexample to C15 as stated: the load of a file whose lines for the
name, the kind and the status are empty leaves a record with an empty name, an
empty kind and an empty status. -/
theorem campos_no_vacios_contraejemplo :
    cargarDesdeArchivo muestra [] ruta (discoVacio.escribir ruta textoConVacios)
      = ⟨[⟨[], [], .v1000, .v5, .v12_5, []⟩], none, []⟩ := by
  decide

/-! ### Validated input -/

theorem length_flatMap_salto (es : List Texto) :
    es.length ≤ (es.flatMap (fun l => l ++ ['\n'])).length := by
  induction es with
  | nil => simp
  | cons e es ih => simp only [List.flatMap_cons, List.length_append, List.length_cons,
      List.length_nil]; omega

theorem getline_linea (l resto : List Char) (s : Texto) (h : '\n' ∉ l) :
    getline ⟨l ++ '\n' :: resto, false, false⟩ s = (l, ⟨resto, false, false⟩) := by
  have hd : (l ++ '\n' :: resto).dropWhile (fun ch => ch != '\n') = '\n' :: resto := by
    induction l with
    | nil => simp
    | cons c cs ih =>
      have hc : c ≠ '\n' := fun e => h (by simp [e])
      have hcs : '\n' ∉ cs := fun e => h (by simp [e])
      simp [List.dropWhile_cons, hc, ih hcs]
  have ht : (l ++ '\n' :: resto).takeWhile (fun ch => ch != '\n') = l := by
    clear hd
    induction l with
    | nil => simp
    | cons c cs ih =>
      have hc : c ≠ '\n' := fun e => h (by simp [e])
      have hcs : '\n' ∉ cs := fun e => h (by simp [e])
      simp [List.takeWhile_cons, hc, ih hcs]
  unfold getline
  simp only [Cin.good, Bool.not_false, Bool.and_self, if_true]
  split
  · next hnil => simp at hnil
  · rw [hd, ht]

theorem recortar_bordes (s : Texto) (hne : recortar s ≠ []) :
    ((recortar s).head hne ≠ ' ' ∧ (recortar s).head hne ≠ '\t') ∧
    ((recortar s).getLast hne ≠ ' ' ∧ (recortar s).getLast hne ≠ '\t') := by
  have hpre := List.rdropWhile_prefix (fun ch => ch = ' ' || ch = '\t')
    (s.dropWhile (fun ch => ch = ' ' || ch = '\t'))
  have h1 := List.head_dropWhile_not (fun ch => decide (ch = ' ') || decide (ch = '\t')) s
    (hpre.ne_nil hne)
  have h2 := List.rdropWhile_last_not (fun ch => decide (ch = ' ') || decide (ch = '\t'))
    (s.dropWhile (fun ch => ch = ' ' || ch = '\t')) hne
  have h3 := hpre.head hne
  constructor
  · have : (recortar s).head hne
        = (s.dropWhile (fun ch => decide (ch = ' ') || decide (ch = '\t'))).head
            (hpre.ne_nil hne) := h3
    rw [this]
    simpa using h1
  · simpa [recortar] using h2

theorem solicitarTextoDesde_resultado {F : Type} (mensaje : String) (permitirNumeros : Bool)
    (n : Nat) (cin : Cin) (entrada : Texto) (out : List (Emision F))
    (t : Texto) (cin' : Cin) (out' : List (Emision F))
    (h : solicitarTextoDesde mensaje permitirNumeros n cin entrada out = some (t, cin', out')) :
    ∃ s, t = recortar s ∧ aceptable permitirNumeros t = true := by
  induction n generalizing cin entrada out with
  | zero => simp [solicitarTextoDesde] at h
  | succ n ih =>
    simp only [solicitarTextoDesde] at h
    split at h
    · exact ih _ _ _ h
    · next hne =>
      split at h
      · exact ih _ _ _ h
      · next hdig =>
        simp only [Option.some.injEq, Prod.mk.injEq] at h
        obtain ⟨rfl, _, _⟩ := h
        refine ⟨_, rfl, ?_⟩
        cases permitirNumeros <;> simp_all [aceptable]

theorem solicitarTextoDesde_lineas {F : Type} (mensaje : String) (permitirNumeros : Bool)
    (rechazadas : List Texto) (l resto : Texto) (n : Nat) (entrada : Texto)
    (out : List (Emision F))
    (hrech : ∀ e ∈ rechazadas, '\n' ∉ e ∧ aceptable permitirNumeros (recortar e) = false)
    (hl : '\n' ∉ l) (hacc : aceptable permitirNumeros (recortar l) = true)
    (hn : rechazadas.length < n) :
    solicitarTextoDesde mensaje permitirNumeros n
        ⟨(rechazadas ++ [l]).flatMap (fun x => x ++ ['\n']) ++ resto, false, false⟩ entrada out
      = some (recortar l, ⟨resto, false, false⟩,
          out ++ rechazadas.flatMap (fun e =>
            [.literal mensaje, .literal (mensajeDeRechazo (recortar e))])
            ++ [.literal mensaje]) := by
  induction rechazadas generalizing n entrada out with
  | nil =>
    obtain ⟨n, rfl⟩ : ∃ m, n = m + 1 := ⟨n - 1, by simp at hn; omega⟩
    have hb : ([] ++ [l]).flatMap (fun x => x ++ ['\n']) ++ resto = l ++ '\n' :: resto := by simp
    rw [hb]
    simp only [solicitarTextoDesde, getline_linea l resto entrada hl]
    cases permitirNumeros <;> simp_all [aceptable]
  | cons e es ih =>
    obtain ⟨n, rfl⟩ : ∃ m, n = m + 1 := ⟨n - 1, by simp at hn; omega⟩
    obtain ⟨he, hrej⟩ := hrech e (by simp)
    have hb : (e :: es ++ [l]).flatMap (fun x => x ++ ['\n']) ++ resto
        = e ++ '\n' :: ((es ++ [l]).flatMap (fun x => x ++ ['\n']) ++ resto) := by simp
    rw [hb]
    simp only [solicitarTextoDesde, getline_linea e _ entrada he]
    have hrec := fun ent o => ih (n := n) ent o (fun x hx => hrech x (by simp [hx]))
      (by simp at hn; omega)
    by_cases hv : recortar e = []
    · simp only [hv, if_true]
      rw [hrec]
      simp [mensajeDeRechazo, hv]
    · have hdig : (!permitirNumeros && (recortar e).any Char.isDigit) = true := by
        cases permitirNumeros <;> simp_all [aceptable]
      simp only [hv, if_false, hdig, if_true]
      rw [hrec]
      simp [mensajeDeRechazo, hv]

/-- C16 as amended (`solicitarTexto`): whenever it returns, the text returned
is not empty, starts and ends with a character that is neither a blank nor a
tab and, when `permitirNumeros` is false, holds no decimal digit. And on an
input made of lines that are refused once trimmed (empty, or with a digit when
digits are not allowed) followed by a line `l` that is accepted, it returns `l`
trimmed of its blanks and tabs, leaves `std::cin` after that line, and has
printed the prompt and a message for each refused line, then the prompt. -/
theorem lectura_de_texto {F : Type} (mensaje : String) (permitirNumeros : Bool)
    (cin cin' : Cin) (t : Texto) (out : List (Emision F))
    (rechazadas : List Texto) (l resto : Texto)
    (h : solicitarTexto mensaje permitirNumeros cin = some (t, cin', out))
    (hrech : ∀ e ∈ rechazadas, '\n' ∉ e ∧ aceptable permitirNumeros (recortar e) = false)
    (hl : '\n' ∉ l) (hacc : aceptable permitirNumeros (recortar l) = true) :
    (t ≠ [] ∧ (permitirNumeros = false → ∀ ch ∈ t, ch.isDigit = false) ∧
      (∀ ch, t.head? = some ch → ch ≠ ' ' ∧ ch ≠ '\t') ∧
      (∀ ch, t.getLast? = some ch → ch ≠ ' ' ∧ ch ≠ '\t')) ∧
    solicitarTexto (F := F) mensaje permitirNumeros
        ⟨(rechazadas ++ [l]).flatMap (fun x => x ++ ['\n']) ++ resto, false, false⟩
      = some (recortar l, ⟨resto, false, false⟩,
          rechazadas.flatMap (fun e =>
            [.literal mensaje, .literal (mensajeDeRechazo (recortar e))])
            ++ [.literal mensaje]) := by
  constructor
  · obtain ⟨s, rfl, hs⟩ := solicitarTextoDesde_resultado _ _ _ _ _ _ _ _ _ h
    have hne : recortar s ≠ [] := by
      intro e
      simp [aceptable, e] at hs
    obtain ⟨hh, hlast⟩ := recortar_bordes s hne
    refine ⟨hne, ?_, ?_, ?_⟩
    · intro hp ch hch
      subst hp
      simp only [aceptable, Bool.false_or, Bool.and_eq_true, Bool.not_eq_true',
        List.any_eq_false] at hs
      simpa using hs.2 ch hch
    · intro ch hch
      rw [List.head?_eq_head hne, Option.some.injEq] at hch
      exact hch ▸ hh
    · intro ch hch
      rw [List.getLast?_eq_getLast _ hne, Option.some.injEq] at hch
      exact hch ▸ hlast
  · have hlen : rechazadas.length
        < ((rechazadas ++ [l]).flatMap (fun x => x ++ ['\n']) ++ resto).length + 2 := by
      have := length_flatMap_salto (rechazadas ++ [l])
      simp only [List.length_append, List.length_cons, List.length_nil] at this ⊢
      omega
    have := solicitarTextoDesde_lineas (F := F) mensaje permitirNumeros rechazadas l resto _
      [] [] hrech hl hacc hlen
    simpa [solicitarTexto] using this

/-- Witness of C16 on the sample: digits are not allowed; an empty line and
`Usado2` are refused, ` Nuevo ` is accepted and returned as `Nuevo`. -/
theorem lectura_de_texto_witness :
    solicitarTexto (F := FloatMuestra) "Estado: " false
        ⟨"  \nUsado2\n Nuevo \t\nresto".toList, false, false⟩
      = some ("Nuevo".toList, ⟨"resto".toList, false, false⟩,
          [.literal "Estado: ", .literal "Error: No puede estar vacío.\n",
           .literal "Estado: ", .literal "Error: No se permiten números en este campo.\n",
           .literal "Estado: "]) :=
  (lectura_de_texto (F := FloatMuestra) "Estado: " false ⟨"x\n".toList, false, false⟩
    ⟨[], false, false⟩ "x".toList [.literal "Estado: "]
    ["  ".toList, "Usado2".toList] " Nuevo \t".toList "resto".toList rfl
    (by decide) (by decide) (by decide)).2.trans (by decide)

/-- Counterexample to C16 as stated: the line `Nuevo` followed by a carriage
return is accepted and returned with the carriage return, a white-space
character, still at its end. -/
theorem lectura_de_texto_contraejemplo :
    (solicitarTexto (F := FloatMuestra) "Estado del componente: " true
        ⟨"Nuevo\r\n".toList, false, false⟩).map
        (fun r => (r.1, r.1.getLast?.map esEspacio))
      = some ("Nuevo\r".toList, some true) := by
  decide

theorem descartarLinea_linea (r resto : List Char) (n : Nat) (h : '\n' ∉ r)
    (hn : r.length < n) : descartarLinea (r ++ '\n' :: resto) n = (resto, false) := by
  induction r generalizing n with
  | nil =>
    have : n ≠ 0 := by simp at hn; omega
    simp [descartarLinea, this]
  | cons c cs ih =>
    have hc : c ≠ '\n' := fun e => h (by simp [e])
    have hcs : '\n' ∉ cs := fun e => h (by simp [e])
    have : n ≠ 0 := by simp at hn; omega
    simp only [List.cons_append, descartarLinea, this, if_false, hc]
    exact ih (n - 1) hcs (by simp at hn; omega)

theorem dropWhile_espacio_append (e t : List Char) (h : e.dropWhile esEspacio ≠ []) :
    (e ++ t).dropWhile esEspacio = e.dropWhile esEspacio ++ t := by
  induction e with
  | nil => simp at h
  | cons c cs ih =>
    by_cases hc : esEspacio c = true
    · simp only [List.cons_append, List.dropWhile_cons, hc, if_true] at h ⊢
      exact ih h
    · simp [List.dropWhile_cons, hc]

theorem dropWhile_espacio_blanco (e t : List Char) (h : enBlanco e = true) :
    (e ++ '\n' :: t).dropWhile esEspacio = t.dropWhile esEspacio := by
  induction e with
  | nil => simp [List.dropWhile_cons, esEspacio]
  | cons c cs ih =>
    simp only [enBlanco, List.all_cons, Bool.and_eq_true] at h
    simp only [List.cons_append, List.dropWhile_cons, h.1, if_true]
    exact ih h.2

theorem enBlanco_dropWhile (e : List Char) (h : e.dropWhile esEspacio ≠ []) :
    enBlanco e = false := by
  induction e with
  | nil => simp at h
  | cons c cs ih =>
    by_cases hc : esEspacio c = true
    · simp only [List.dropWhile_cons, hc, if_true] at h
      have := ih h
      simp only [enBlanco] at this
      simp [enBlanco, hc, this]
    · simp [enBlanco, hc]

theorem extraerFloat_espacios {F : Type} (L : BibliotecaFloat F) (b1 b2 : List Char) (valor : F)
    (h : b1.dropWhile esEspacio = b2.dropWhile esEspacio) :
    extraerFloat L ⟨b1, false, false⟩ valor = extraerFloat L ⟨b2, false, false⟩ valor := by
  simp [extraerFloat, Cin.good, h]

theorem solicitarNumeroDesde_espacios {F : Type} (L : BibliotecaFloat F) (mensaje : String)
    (n : Nat) (b1 b2 : List Char) (valor : F) (out : List (Emision F))
    (h : b1.dropWhile esEspacio = b2.dropWhile esEspacio) :
    solicitarNumeroDesde L mensaje n ⟨b1, false, false⟩ valor out
      = solicitarNumeroDesde L mensaje n ⟨b2, false, false⟩ valor out := by
  cases n with
  | zero => rfl
  | succ n => simp only [solicitarNumeroDesde, extraerFloat_espacios L b1 b2 valor h]

theorem extraerFloat_entrada {F : Type} (L : BibliotecaFloat F) (e resto : List Char)
    (valor : F) (o : Option F) (r : List Char) (h : e.dropWhile esEspacio ≠ [])
    (hl : L.leerFloat (e.dropWhile esEspacio ++ '\n' :: resto) = (o, r ++ '\n' :: resto)) :
    extraerFloat L ⟨e ++ '\n' :: resto, false, false⟩ valor
      = (o.getD L.cero, ⟨r ++ '\n' :: resto, false, o.isNone⟩) := by
  unfold extraerFloat
  simp only [Cin.good, Bool.not_false, Bool.and_self, if_true,
    dropWhile_espacio_append e _ h]
  cases hb : e.dropWhile esEspacio with
  | nil => exact absurd hb h
  | cons c cs =>
    rw [hb] at hl
    simp only [List.cons_append] at hl ⊢
    rw [hl]
    cases o <;> simp

theorem solicitarNumeroDesde_entradas {F : Type} (L : BibliotecaFloat F) (mensaje : String)
    (entradas : List Texto) (e resto : Texto) (v : F) (n : Nat) (valor : F)
    (out : List (Emision F))
    (hent : ∀ x ∈ entradas, enBlanco x = true ∨ EntradaRechazada L x)
    (hacc : EntradaAceptada L e v)
    (hn : (entradas.filter (fun x => !enBlanco x)).length < n) :
    solicitarNumeroDesde L mensaje n
        ⟨entradas.flatMap (fun x => x ++ ['\n']) ++ (e ++ '\n' :: resto), false, false⟩
        valor out
      = some (v, ⟨resto, false, false⟩,
          out ++ (entradas.filter (fun x => !enBlanco x)).flatMap (fun _ =>
            [.literal mensaje, .literal "Error: Debe ingresar un número válido.\n"])
            ++ [.literal mensaje]) := by
  induction entradas generalizing n valor out with
  | nil =>
    obtain ⟨n, rfl⟩ : ∃ m, n = m + 1 := ⟨n - 1, by simp at hn; omega⟩
    obtain ⟨_, hlen, hb, hleer⟩ := hacc
    obtain ⟨r, hr, hl⟩ := hleer resto
    have hsuf := hr.trans (List.dropWhile_suffix esEspacio)
    have hrn : '\n' ∉ r := fun hm => by
      have := hsuf.subset hm
      contradiction
    have hrl : r.length < streamsizeMax := lt_of_le_of_lt hsuf.length_le hlen
    simp only [List.flatMap_nil, List.nil_append, solicitarNumeroDesde,
      extraerFloat_entrada L e resto valor (some v) r hb hl, Option.isNone_some,
      Bool.false_eq_true, if_false, Option.getD_some, Cin.ignoreHasta, Cin.good,
      Bool.not_false, Bool.and_self, if_true, descartarLinea_linea r resto _ hrn hrl]
    simp
  | cons x xs ih =>
    have hb : (x :: xs).flatMap (fun x => x ++ ['\n']) ++ (e ++ '\n' :: resto)
        = x ++ '\n' :: (xs.flatMap (fun x => x ++ ['\n']) ++ (e ++ '\n' :: resto)) := by simp
    rw [hb]
    have hxs : ∀ y ∈ xs, enBlanco y = true ∨ EntradaRechazada L y :=
      fun y hy => hent y (by simp [hy])
    rcases hent x (by simp) with hx | hx
    · rw [solicitarNumeroDesde_espacios L mensaje n _ _ valor out
        (dropWhile_espacio_blanco x _ hx)]
      have hf : (x :: xs).filter (fun x => !enBlanco x) = xs.filter (fun x => !enBlanco x) := by
        simp [List.filter_cons, hx]
      rw [hf] at hn ⊢
      exact ih n valor out hxs hn
    · obtain ⟨hxn, hlen, hbx, hleer⟩ := hx
      obtain ⟨r, hr, hl⟩ := hleer (xs.flatMap (fun x => x ++ ['\n']) ++ (e ++ '\n' :: resto))
      have hsuf := hr.trans (List.dropWhile_suffix esEspacio)
      have hrn : '\n' ∉ r := fun hm => hxn (hsuf.subset hm)
      have hrl : r.length < 10000 := lt_of_le_of_lt hsuf.length_le hlen
      have hf : (x :: xs).filter (fun x => !enBlanco x)
          = x :: xs.filter (fun x => !enBlanco x) := by
        simp [List.filter_cons, enBlanco_dropWhile x hbx]
      rw [hf] at hn ⊢
      obtain ⟨n, rfl⟩ : ∃ m, n = m + 1 := ⟨n - 1, by simp at hn; omega⟩
      simp only [solicitarNumeroDesde,
        extraerFloat_entrada L x _ valor none r hbx hl, Option.isNone_none, if_true,
        Option.getD_none, Cin.clear, Cin.ignoreHasta, Cin.good, Bool.not_false, Bool.and_self,
        descartarLinea_linea r _ 10000 hrn hrl]
      rw [ih n L.cero _ hxs (by simp at hn; omega)]
      simp

/-- C17 as amended (`solicitarNumero`): the input is made of entries that are
blank or refused by `std::cin >> valor`, each on its line, followed by a line
`e` in which a number of value `v` is read. Then `solicitarNumero` returns `v`
and leaves `std::cin` after the line of `e`; it has printed the prompt and the
error message once for each refused entry, nothing for a blank entry, then the
prompt. -/
theorem lectura_de_numero {F : Type} (L : BibliotecaFloat F) (mensaje : String)
    (entradas : List Texto) (e resto : Texto) (v : F)
    (hent : ∀ x ∈ entradas, enBlanco x = true ∨ EntradaRechazada L x)
    (hacc : EntradaAceptada L e v) :
    solicitarNumero L mensaje
        ⟨entradas.flatMap (fun x => x ++ ['\n']) ++ (e ++ '\n' :: resto), false, false⟩
      = some (v, ⟨resto, false, false⟩,
          (entradas.filter (fun x => !enBlanco x)).flatMap (fun _ =>
            [.literal mensaje, .literal "Error: Debe ingresar un número válido.\n"])
            ++ [.literal mensaje]) := by
  have hlen : (entradas.filter (fun x => !enBlanco x)).length
      < (entradas.flatMap (fun x => x ++ ['\n']) ++ (e ++ '\n' :: resto)).length + 2 := by
    have h1 := length_flatMap_salto entradas
    have h2 := List.length_filter_le (fun x => !enBlanco x) entradas
    simp only [List.length_append]
    omega
  have := solicitarNumeroDesde_entradas L mensaje entradas e resto v _ L.cero [] hent hacc hlen
  simpa [solicitarNumero] using this

/-- Witness of C17 on the sample: an empty line, the entry `abc` and a line of
blanks, then ` 5.0001 xyz`; `abc` alone gets the error message and 5.0001 is
returned. -/
theorem lectura_de_numero_witness :
    solicitarNumero muestra "Valor: "
        ⟨"\nabc\n  \n 5.0001 xyz\nresto".toList, false, false⟩
      = some (.v5_0001, ⟨"resto".toList, false, false⟩,
          [.literal "Valor: ", .literal "Error: Debe ingresar un número válido.\n",
           .literal "Valor: "]) :=
  lectura_de_numero muestra "Valor: " ["".toList, "abc".toList, "  ".toList]
    " 5.0001 xyz".toList "resto".toList .v5_0001
    (by
      intro x hx
      simp only [List.mem_cons, List.mem_singleton, List.not_mem_nil, or_false] at hx
      rcases hx with rfl | rfl | rfl
      · exact Or.inl (by decide)
      · exact Or.inr ⟨by decide, by decide, by decide,
          fun resto => ⟨"abc".toList, by decide, rfl⟩⟩
      · exact Or.inl (by decide))
    ⟨by decide, by decide, by decide, fun resto => ⟨" xyz".toList, by decide, rfl⟩⟩

/-- Counterexample to C17 as stated: the first two entries, an empty line and
a line of blanks, are no numbers; they are skipped without any message, the
prompt is printed once and 5 is returned. -/
theorem lectura_de_numero_contraejemplo :
    solicitarNumero muestra "Valor: " ⟨"\n   \n5\n".toList, false, false⟩
      = some (.v5, ⟨[], false, false⟩, [.literal "Valor: "]) := by
  decide

theorem leerInt_eq (b : List Char) : leerInt b = leerIntCon (signoDe b) := rfl

theorem takeWhile_digitos_salto (u resto : List Char) :
    (u ++ '\n' :: resto).takeWhile Char.isDigit = u.takeWhile Char.isDigit := by
  induction u with
  | nil => simp [List.takeWhile_cons]
  | cons c cs ih =>
    by_cases hc : c.isDigit = true
    · simp [List.takeWhile_cons, hc, ih]
    · simp [List.takeWhile_cons, hc]

theorem dropWhile_digitos_salto (u resto : List Char) :
    (u ++ '\n' :: resto).dropWhile Char.isDigit = u.dropWhile Char.isDigit ++ '\n' :: resto := by
  induction u with
  | nil => simp [List.dropWhile_cons]
  | cons c cs ih =>
    by_cases hc : c.isDigit = true
    · simp [List.dropWhile_cons, hc, ih]
    · simp [List.dropWhile_cons, hc]

theorem signoDe_entrada (b x : List Char) (hb : b ≠ []) :
    signoDe (b ++ x) = ((signoDe b).1, (signoDe b).2 ++ x) := by
  cases b with
  | nil => exact absurd rfl hb
  | cons c t =>
    by_cases h1 : c = '-'
    · subst h1; rfl
    · by_cases h2 : c = '+'
      · subst h2; rfl
      · have e1 : ∀ u, signoDe (c :: u) = (false, c :: u) := by
          intro u
          unfold signoDe
          split
          · next h => simp at h; exact absurd h.1 h1
          · next h => simp at h; exact absurd h.1 h2
          · rfl
        rw [List.cons_append, e1, e1]
        rfl

theorem leerIntCon_entrada (s : Bool) (u resto : List Char) :
    leerIntCon (s, u ++ '\n' :: resto)
      = ((leerIntCon (s, u)).1, (leerIntCon (s, u)).2.1,
          (leerIntCon (s, u)).2.2 ++ '\n' :: resto) := by
  simp only [leerIntCon, takeWhile_digitos_salto, dropWhile_digitos_salto]
  split_ifs <;> rfl

theorem leerInt_entrada (b resto : List Char) (hb : b ≠ []) :
    leerInt (b ++ '\n' :: resto)
      = ((leerInt b).1, (leerInt b).2.1, (leerInt b).2.2 ++ '\n' :: resto) := by
  rw [leerInt_eq, leerInt_eq, signoDe_entrada b _ hb]
  exact leerIntCon_entrada _ _ _

theorem extraerInt_espacios (b1 b2 : List Char) (valor : Int)
    (h : b1.dropWhile esEspacio = b2.dropWhile esEspacio) :
    extraerInt ⟨b1, false, false⟩ valor = extraerInt ⟨b2, false, false⟩ valor := by
  simp [extraerInt, Cin.good, h]

theorem extraerInt_entrada (e resto : List Char) (valor : Int)
    (h : e.dropWhile esEspacio ≠ []) :
    extraerInt ⟨e ++ '\n' :: resto, false, false⟩ valor
      = ((leerInt (e.dropWhile esEspacio)).1,
          ⟨(leerInt (e.dropWhile esEspacio)).2.2 ++ '\n' :: resto, false,
            !(leerInt (e.dropWhile esEspacio)).2.1⟩) := by
  unfold extraerInt
  simp only [Cin.good, Bool.not_false, Bool.and_self, if_true,
    dropWhile_espacio_append e _ h]
  cases hb : e.dropWhile esEspacio with
  | nil => exact absurd hb h
  | cons c cs =>
    have := leerInt_entrada (c :: cs) resto (by simp)
    simp only [List.cons_append] at this ⊢
    rw [this]
    simp

/-- C21 (continuation mode needs an existing file): when the file named on the
keyboard does not open for reading, `iniciarRegistro` with `sobrescribir =
false` returns after two messages, the request for the name and `El archivo no
existe. No se puede continuar`; it has read the line of the name and nothing
else, the file system is as it was and so is the vector. -/
theorem continuacion_sin_archivo {F : Type} (L : BibliotecaFloat F)
    (registros : List (componente F)) (nombreArchivo : Texto) (cin : Cin) (fs : Sistema)
    (h : fs.abrirLectura (getline cin.ignore nombreArchivo).1 = none) :
    iniciarRegistro L registros nombreArchivo false cin fs
      = some ⟨registros, (getline cin.ignore nombreArchivo).1,
          (getline cin.ignore nombreArchivo).2, fs,
          [.literal "Ingresa el nombre del archivo (agrega .txt al final): \n",
           .literal "El archivo no existe. No se puede continuar\n"]⟩ := by
  simp [iniciarRegistro, registrarDesde, h]

/-- Witness of C21 on the sample: `noexiste.txt` on an empty disk, with
`resistor` in the vector and a component typed after the name, which is left
unread. -/
theorem continuacion_sin_archivo_witness :
    (iniciarRegistro muestra [resistor] [] false
        ⟨"\nnoexiste.txt\nResistor 1k\n".toList, false, false⟩ discoVacio).map
        (fun s => (s.registros, s.nombreArchivo, s.cin, s.fs.contenido s.nombreArchivo,
          s.salida))
      = some ([resistor], "noexiste.txt".toList, ⟨"Resistor 1k\n".toList, false, false⟩, none,
          [.literal "Ingresa el nombre del archivo (agrega .txt al final): \n",
           .literal "El archivo no existe. No se puede continuar\n"]) :=
  (congrArg (Option.map (fun s : Sesion FloatMuestra =>
      (s.registros, s.nombreArchivo, s.cin, s.fs.contenido s.nombreArchivo, s.salida)))
    (continuacion_sin_archivo muestra [resistor] []
      ⟨"\nnoexiste.txt\nResistor 1k\n".toList, false, false⟩ discoVacio rfl)).trans
    rfl

/-- C22, the code at the failing input: for option 7 `buscarPorParametro`
prints `Volviendo al menú principal...` and then, since `case 7` has no
`break`, the message of `default`, `Entrada inválida, volviendo al menú
principal...`. -/
theorem despacho_opcion_siete {F : Type} (L : BibliotecaFloat F)
    (registros : List (componente F)) (cin : Cin) :
    buscarPorParametro L 7 registros cin
      = some (cin, [.literal "Volviendo al menú principal...",
          .literal "Entrada inválida, volviendo al menú principal..."]) := by
  simp [buscarPorParametro]

/-! ### The reading loop: what a load keeps -/

theorem lineas_de_lineas (ls : List Texto) (t : Texto) (h : ∀ l ∈ ls, '\n' ∉ l) :
    lineas (ls.flatMap (fun l => l ++ ['\n']) ++ t) = ls ++ lineas t := by
  induction ls with
  | nil => simp
  | cons l ls ih =>
    have e : (l :: ls).flatMap (fun l => l ++ ['\n']) ++ t
        = l ++ '\n' :: (ls.flatMap (fun l => l ++ ['\n']) ++ t) := by simp
    rw [e, lineas_linea _ _ (h l (by simp)), ih (fun x hx => h x (by simp [hx]))]
    rfl

theorem lineasDeRegistro_sin_salto {F : Type} (L : BibliotecaFloat F) (x : componente F)
    (hx : sinSalto x) : ∀ l ∈ lineasDeRegistro L x, '\n' ∉ l := by
  obtain ⟨h1, h2, h3⟩ := hx
  intro l hl
  simp only [lineasDeRegistro, List.mem_cons, List.mem_singleton, List.not_mem_nil,
    or_false] at hl
  rcases hl with rfl | rfl | rfl | rfl | rfl | rfl | rfl
  · exact h1
  · exact h2
  · exact L.fmt_sin_salto _
  · exact L.fmt_sin_salto _
  · exact L.fmt_sin_salto _
  · exact h3
  · exact separador_sin_salto

theorem lineas_primerasLineas {F : Type} (L : BibliotecaFloat F) (k : Nat) (x : componente F)
    (hx : sinSalto x) (t : Texto) :
    lineas (primerasLineas L k x ++ t) = (lineasDeRegistro L x).take k ++ lineas t :=
  lineas_de_lineas _ t
    (fun l hl => lineasDeRegistro_sin_salto L x hx l (List.mem_of_mem_take hl))

theorem cargarLineas_falla {F : Type} (L : BibliotecaFloat F) (ls : List Texto)
    (regs : List (componente F)) (temp : componente F) (c : Int) (e : ErrorStof)
    (h : (cargarLineas L ls regs temp c).2 = some e) :
    ∃ pre bad post, ls = pre ++ bad :: post ∧ L.stof bad = .error e ∧
      cargarLineas L pre regs temp c = ((cargarLineas L ls regs temp c).1, none) := by
  induction ls generalizing regs temp c with
  | nil => simp [cargarLineas] at h
  | cons linea resto ih =>
    have paso : ∀ (regs' : List (componente F)) (temp' : componente F) (c' : Int),
        (∀ xs, cargarLineas L (linea :: xs) regs temp c = cargarLineas L xs regs' temp' c') →
        ∃ pre bad post, linea :: resto = pre ++ bad :: post ∧ L.stof bad = .error e ∧
          cargarLineas L pre regs temp c
            = ((cargarLineas L (linea :: resto) regs temp c).1, none) := by
      intro regs' temp' c' heq
      rw [heq resto] at h ⊢
      obtain ⟨pre, bad, post, h1, h2, h3⟩ := ih regs' temp' c' h
      exact ⟨linea :: pre, bad, post, by rw [h1]; rfl, h2, by rw [heq pre, h3]⟩
    have numerico : (c = 2 ∨ c = 3 ∨ c = 4) →
        (∀ v, ∃ temp', ∀ xs, L.stof linea = .ok v →
          cargarLineas L (linea :: xs) regs temp c = cargarLineas L xs regs temp' (c + 1)) →
        (∀ e' xs, L.stof linea = .error e' →
          cargarLineas L (linea :: xs) regs temp c = (regs, some e')) →
        ∃ pre bad post, linea :: resto = pre ++ bad :: post ∧ L.stof bad = .error e ∧
          cargarLineas L pre regs temp c
            = ((cargarLineas L (linea :: resto) regs temp c).1, none) := by
      intro _ hok herr
      cases hst : L.stof linea with
      | ok v =>
        obtain ⟨temp', ht⟩ := hok v
        exact paso regs temp' (c + 1) (fun xs => ht xs hst)
      | error e' =>
        rw [herr e' resto hst] at h ⊢
        simp only [Option.some.injEq] at h
        subst h
        exact ⟨[], linea, resto, rfl, hst, by simp [cargarLineas]⟩
    by_cases h0 : c = 0
    · subst h0; exact paso _ _ _ (fun xs => by simp [cargarLineas]; rfl)
    by_cases h1 : c = 1
    · subst h1; exact paso _ _ _ (fun xs => by simp [cargarLineas]; rfl)
    by_cases h2 : c = 2
    · subst h2
      exact numerico (by decide)
        (fun v => ⟨{ temp with valorNominal := v }, fun xs hv => by simp [cargarLineas, hv]⟩)
        (fun e' xs he => by simp [cargarLineas, he])
    by_cases h3 : c = 3
    · subst h3
      exact numerico (by decide)
        (fun v => ⟨{ temp with tolerancia := v }, fun xs hv => by simp [cargarLineas, hv]⟩)
        (fun e' xs he => by simp [cargarLineas, he])
    by_cases h4 : c = 4
    · subst h4
      exact numerico (by decide)
        (fun v => ⟨{ temp with voltajeDeTrabajo := v }, fun xs hv => by
          simp [cargarLineas, hv]⟩)
        (fun e' xs he => by simp [cargarLineas, he])
    by_cases h5 : c = 5
    · subst h5; exact paso _ _ _ (fun xs => by simp [cargarLineas]; rfl)
    by_cases h6 : c = 6
    · subst h6
      by_cases hsep : linea = separador
      · exact paso _ _ _ (fun xs => by simp [cargarLineas, hsep]; rfl)
      · exact paso _ _ _ (fun xs => by simp [cargarLineas, hsep]; rfl)
    · exact paso _ _ _ (fun xs => by simp [cargarLineas, h0, h1, h2, h3, h4, h5, h6]; rfl)

theorem cargarLineas_linea_mala {F : Type} (L : BibliotecaFloat F) (x y : componente F)
    (hxy : Releido L x y) (k : Nat) (hk : k = 2 ∨ k = 3 ∨ k = 4) (bad : Texto)
    (e : ErrorStof) (hbad : L.stof bad = .error e) (ls : List Texto)
    (regs : List (componente F)) :
    cargarLineas L ((lineasDeRegistro L x).take k ++ bad :: ls) regs (componente.nuevo L) 0
      = (regs, some e) := by
  obtain ⟨_, _, h3, h4, h5, _⟩ := hxy
  rcases hk with rfl | rfl | rfl <;> simp [lineasDeRegistro, cargarLineas, h3, h4, hbad]

/-- C28 (a load is not atomic on a parse error): when `cargarDesdeArchivo`
ends on an exception of `std::stof`, the lines of the file split into the lines
before the failing one, the failing line and the rest, and the vector is left
exactly as a load of the lines before the failing one alone builds it from an
empty vector: the records completed so far stay, and nothing of what the vector
held before the call does. On a file that holds the records `rs`, then the
first `k` lines of a record (`k` is 2, 3 or 4) and a line that `std::stof`
refuses, the vector is left with the records of `rs` as read back. -/
theorem carga_no_atomica {F : Type} (L : BibliotecaFloat F) (fs : Sistema) (p : Texto)
    (previos : List (componente F)) (e : ErrorStof)
    (rs rs' : List (componente F)) (r r' : componente F) (k : Nat) (bad resto : Texto)
    (fs2 : Sistema) (p2 : Texto) (previos2 : List (componente F)) (e2 : ErrorStof)
    (h : (cargarDesdeArchivo L previos p fs).error = some e)
    (hs : ∀ x ∈ rs, sinSalto x) (hsr : sinSalto r)
    (hrs : List.Forall₂ (Releido L) rs rs') (hr : Releido L r r')
    (hk : k = 2 ∨ k = 3 ∨ k = 4) (hl : '\n' ∉ bad) (hbad : L.stof bad = .error e2)
    (hfile : fs2.abrirLectura p2
      = some (serializarTodos L rs ++ (primerasLineas L k r ++ (bad ++ '\n' :: resto)))) :
    (∃ t pre mala post, fs.abrirLectura p = some t ∧ lineas t = pre ++ mala :: post ∧
      L.stof mala = .error e ∧
      cargarLineas L pre [] (componente.nuevo L) 0
        = ((cargarDesdeArchivo L previos p fs).registros, none)) ∧
    cargarDesdeArchivo L previos2 p2 fs2 = ⟨rs', some e2, []⟩ := by
  constructor
  · unfold cargarDesdeArchivo at h ⊢
    cases ht : fs.abrirLectura p with
    | none => simp [ht] at h
    | some t =>
      simp only [ht] at h ⊢
      obtain ⟨pre, mala, post, h1, h2, h3⟩ :=
        cargarLineas_falla L (lineas t) [] (componente.nuevo L) 0 e h
      exact ⟨t, pre, mala, post, rfl, h1, h2, h3⟩
  · have h1 := cargarLineas_todos L rs rs' hs hrs
      (primerasLineas L k r ++ (bad ++ '\n' :: resto)) []
    simp only [cargarDesdeArchivo, hfile, h1, lineas_primerasLineas L k r hsr,
      lineas_linea _ _ hl, cargarLineas_linea_mala L r r' hr k hk bad e2 hbad,
      List.nil_append]

/-- Witness of C28 on the sample: `componentes.txt` holds `resistor`, the first
two lines of `capacitor` and the line `xyz`; the load ends on
`std::invalid_argument`, the vector held `capacitor` and is left with
`resistor`. -/
theorem carga_no_atomica_witness :
    (∃ t pre mala post, discoConFallo.abrirLectura ruta = some t ∧
      lineas t = pre ++ mala :: post ∧ muestra.stof mala = .error .invalid_argument ∧
      cargarLineas muestra pre [] (componente.nuevo muestra) 0
        = ((cargarDesdeArchivo muestra [capacitor] ruta discoConFallo).registros, none)) ∧
    cargarDesdeArchivo muestra [capacitor] ruta discoConFallo
      = ⟨[resistor], some .invalid_argument, []⟩ :=
  carga_no_atomica muestra discoConFallo ruta [capacitor] .invalid_argument
    [resistor] [resistor] capacitor capacitorLeido 2 "xyz".toList
    "5\n5\nUsado\n-----\n".toList discoConFallo ruta [capacitor] .invalid_argument
    (by decide)
    (by intro x hx; rw [List.mem_singleton.mp hx]; unfold sinSalto; decide)
    (by unfold sinSalto; decide)
    (List.Forall₂.cons ⟨rfl, rfl, rfl, rfl, rfl, rfl⟩ List.Forall₂.nil)
    ⟨rfl, rfl, rfl, rfl, rfl, rfl⟩ (Or.inl rfl) (by decide) rfl rfl

end RegistroDeComponentes

/-! ## Theorems about contadorDeDigitos.cpp -/

namespace ContadorDeDigitos

open RegistroDeComponentes

theorem contarDesde_digitos (n : Nat) (temp contador : Int) (h0 : 0 ≤ temp)
    (hn : temp < (n : Int)) :
    ∃ d : Nat, contarDesde n temp contador = some (contador + d) ∧
      (temp = 0 → d = 0) ∧
      (0 < temp → 1 ≤ d ∧ (10 : Int) ^ (d - 1) ≤ temp ∧ temp < (10 : Int) ^ d) := by
  induction n generalizing temp contador with
  | zero => omega
  | succ n ih =>
    by_cases hpos : temp > 0
    · have hq : temp.tdiv 10 = temp / 10 := Int.tdiv_eq_ediv h0 (by decide)
      have hq0 : 0 ≤ temp / 10 := by omega
      have hqn : temp / 10 < (n : Int) := by push_cast at hn; omega
      obtain ⟨d, hd, hz, hp⟩ := ih (temp / 10) (contador + 1) hq0 hqn
      refine ⟨d + 1, ?_, ?_, ?_⟩
      · simp only [contarDesde, hpos, if_true, hq, hd]
        push_cast
        congr 1
        ring
      · intro h; omega
      · intro _
        refine ⟨by omega, ?_, ?_⟩
        · by_cases hq1 : temp / 10 = 0
          · have := hz hq1
            subst this
            simp
            omega
          · obtain ⟨h1, hlo, hhi⟩ := hp (by omega)
            have hpow : (10 : Int) ^ d = 10 ^ (d - 1) * 10 := by
              rw [← pow_succ]
              congr 1
              omega
            simp only [Nat.add_sub_cancel]
            rw [hpow]
            omega
        · by_cases hq1 : temp / 10 = 0
          · have := hz hq1
            subst this
            simp
            omega
          · obtain ⟨h1, hlo, hhi⟩ := hp (by omega)
            rw [pow_succ]
            omega
    · have : temp = 0 := by omega
      subst this
      exact ⟨0, by simp [contarDesde], fun _ => rfl, fun h => absurd h (by decide)⟩

/-- C23: whatever is typed, `main` of `contadorDeDigitos.cpp` returns. When
the integer read is positive the exit code is 0 and the count printed is the
number of decimal digits of it: `10^(count-1) ≤ num < 10^count`; when it
is zero or negative the exit code is 1 and the only thing printed after the
prompt is the request for a positive integer, no count. -/
theorem conteo_de_digitos (indeterminado : Int) (cin : Cin) :
    (0 < (extraerInt cin indeterminado).1 →
      ∃ contador : Nat,
        main indeterminado cin
          = some (0, [.literal "Ingrese un número entero positivo: ",
              .literal "El número ", .entero (extraerInt cin indeterminado).1,
              .literal " tiene ", .entero contador, .literal " dígitos.",
              .literal "\n"]) ∧
        1 ≤ contador ∧
        (10 : Int) ^ (contador - 1) ≤ (extraerInt cin indeterminado).1 ∧
        (extraerInt cin indeterminado).1 < (10 : Int) ^ contador) ∧
    ((extraerInt cin indeterminado).1 ≤ 0 →
      main indeterminado cin
        = some (1, [.literal "Ingrese un número entero positivo: ",
            .literal "Por favor, ingrese un número entero positivo.",
            .literal "\n"])) := by
  constructor
  · intro hpos
    obtain ⟨d, hd, _, hp⟩ :=
      contarDesde_digitos ((extraerInt cin indeterminado).1.toNat + 1)
        (extraerInt cin indeterminado).1 0 (by omega) (by push_cast; omega)
    obtain ⟨h1, hlo, hhi⟩ := hp hpos
    refine ⟨d, ?_, h1, hlo, hhi⟩
    simp only [main, not_le.mpr hpos, if_false, hd]
    simp
  · intro hle
    simp [main, hle]

/-- The digit counter on the entry `1234`: four digits. -/
theorem conteo_de_digitos_witness :
    main 0 ⟨"1234\n".toList, false, false⟩
      = some (0, [.literal "Ingrese un número entero positivo: ",
          .literal "El número ", .entero 1234, .literal " tiene ", .entero 4,
          .literal " dígitos.", .literal "\n"]) ∧
    main 0 ⟨"-5\n".toList, false, false⟩
      = some (1, [.literal "Ingrese un número entero positivo: ",
          .literal "Por favor, ingrese un número entero positivo.",
          .literal "\n"]) :=
  ⟨by
    obtain ⟨d, hd, h1, hlo, hhi⟩ :=
      (conteo_de_digitos 0 ⟨"1234\n".toList, false, false⟩).1 (by decide)
    rw [hd]
    have e : (extraerInt ⟨"1234\n".toList, false, false⟩ 0).1 = 1234 := by decide
    rw [e] at hlo hhi ⊢
    have : d = 4 := by
      have h10 : (10 : Int) ^ 3 ≤ 1234 := by norm_num
      have h11 : (1234 : Int) < 10 ^ 4 := by norm_num
      by_contra hne
      rcases Nat.lt_or_gt_of_ne hne with hlt | hgt
      · have : (10 : Int) ^ d ≤ 10 ^ 3 := pow_le_pow_right₀ (by norm_num) (by omega)
        omega
      · have : (10 : Int) ^ 4 ≤ 10 ^ (d - 1) := pow_le_pow_right₀ (by norm_num) (by omega)
        omega
    subst this
    rfl,
   (conteo_de_digitos 0 ⟨"-5\n".toList, false, false⟩).2 (by decide)⟩

end ContadorDeDigitos

/-! ## Theorems about mayorMenorEnArreglo.cpp -/

namespace MayorMenorEnArreglo

open RegistroDeComponentes

theorem leerNums_length (is : List Nat) (cin : Cin) (nums : List Int) (out : List Emision) :
    (leerNums is cin nums out).2.1.length = nums.length := by
  induction is generalizing cin nums out with
  | nil => rfl
  | cons i is ih => simp [leerNums, ih]

theorem leerNums_salida (is : List Nat) (cin : Cin) (nums : List Int) (out : List Emision) :
    (leerNums is cin nums out).2.2
      = out ++ List.replicate is.length (Emision.literal "Ingresa un número: \n") := by
  induction is generalizing cin nums out with
  | nil => simp [leerNums]
  | cons i is ih => simp [leerNums, ih, List.replicate_succ]

theorem menorMayor_cotas (nums : List Int) (is : List Nat) (mm : Int × Int) :
    (menorMayor nums is mm).1 ≤ mm.1 ∧ mm.2 ≤ (menorMayor nums is mm).2 ∧
    (∀ i ∈ is, (menorMayor nums is mm).1 ≤ nums.getD i 0 ∧
      nums.getD i 0 ≤ (menorMayor nums is mm).2) ∧
    ((menorMayor nums is mm).1 = mm.1 ∨
      ∃ i ∈ is, (menorMayor nums is mm).1 = nums.getD i 0) ∧
    ((menorMayor nums is mm).2 = mm.2 ∨
      ∃ i ∈ is, (menorMayor nums is mm).2 = nums.getD i 0) := by
  induction is generalizing mm with
  | nil => simp [menorMayor]
  | cons i is ih =>
    have hm : ∃ m, m = (if nums.getD i 0 < mm.1 then nums.getD i 0 else mm.1) ∧
        m ≤ mm.1 ∧ m ≤ nums.getD i 0 ∧ (m = mm.1 ∨ m = nums.getD i 0) := by
      refine ⟨_, rfl, ?_⟩
      split <;> omega
    have hM : ∃ m, m = (if nums.getD i 0 > mm.2 then nums.getD i 0 else mm.2) ∧
        mm.2 ≤ m ∧ nums.getD i 0 ≤ m ∧ (m = mm.2 ∨ m = nums.getD i 0) := by
      refine ⟨_, rfl, ?_⟩
      split <;> omega
    obtain ⟨m, hme, hm1, hm2, hm3⟩ := hm
    obtain ⟨M, hMe, hM1, hM2, hM3⟩ := hM
    simp only [menorMayor, ← hme, ← hMe]
    obtain ⟨h1, h2, h3, h4, h5⟩ := ih (m, M)
    simp only at h1 h2 h4 h5
    refine ⟨by omega, by omega, ?_, ?_, ?_⟩
    · intro j hj
      rcases List.mem_cons.mp hj with rfl | hj
      · exact ⟨by omega, by omega⟩
      · exact h3 j hj
    · rcases h4 with h | ⟨j, hj, h⟩
      · rcases hm3 with e | e
        · exact Or.inl (h.trans e)
        · exact Or.inr ⟨i, List.mem_cons_self _ _, h.trans e⟩
      · exact Or.inr ⟨j, List.mem_cons_of_mem _ hj, h⟩
    · rcases h5 with h | ⟨j, hj, h⟩
      · rcases hM3 with e | e
        · exact Or.inl (h.trans e)
        · exact Or.inr ⟨i, List.mem_cons_self _ _, h.trans e⟩
      · exact Or.inr ⟨j, List.mem_cons_of_mem _ hj, h⟩

theorem getD_mem (nums : List Int) (i : Nat) (h : i < nums.length) :
    nums.getD i 0 ∈ nums := by
  rw [List.getD_eq_getElem _ _ h]
  exact List.getElem_mem h

theorem mem_getD (nums : List Int) (x : Int) (h : x ∈ nums) :
    ∃ i, i < nums.length ∧ nums.getD i 0 = x := by
  obtain ⟨i, hi, rfl⟩ := List.getElem_of_mem h
  exact ⟨i, hi, List.getD_eq_getElem _ _ hi⟩

/-- The array after the indices `is` were read one after the other with the
values `vs`. -/
theorem leerNums_entradas (resto : Texto) (entradas : List Texto) (vs : List Int)
    (hvs : List.Forall₂ EnteroEnLinea entradas vs) (is : List Nat)
    (his : is.length = entradas.length) (b : Texto) (nums : List Int) (out : List Emision)
    (hb : b.dropWhile esEspacio
      = (entradas.flatMap (fun e => e ++ ['\n']) ++ resto).dropWhile esEspacio) :
    (leerNums is ⟨b, false, false⟩ nums out).2.1
      = (is.zip vs).foldl (fun a iv => a.set iv.1 iv.2) nums := by
  induction hvs generalizing is b nums out with
  | nil =>
    cases is with
    | nil => rfl
    | cons i is => simp at his
  | @cons e v es vs hev _ ih =>
    cases is with
    | nil => simp at his
    | cons i is =>
      obtain ⟨hne, hv, hok, hbl⟩ := hev
      simp only [leerNums, List.zip_cons_cons, List.foldl_cons]
      have hx : extraerInt ⟨b, false, false⟩ (nums.getD i 0)
          = extraerInt ⟨e ++ '\n' :: (es.flatMap (fun e => e ++ ['\n']) ++ resto), false, false⟩
              (nums.getD i 0) := by
        apply extraerInt_espacios
        rw [hb]
        simp
      rw [hx, extraerInt_entrada e _ _ hne, hv, hok]
      simp only [Bool.not_true]
      apply ih is (by simpa using his)
      exact dropWhile_espacio_blanco (leerInt (e.dropWhile esEspacio)).2.2
        (es.flatMap (fun e => e ++ ['\n']) ++ resto) hbl

theorem foldl_set_range (n : Nat) :
    ∀ (nums vs sufijo : List Int), nums.length = n → vs.length = n →
      ((List.range n).zip vs).foldl (fun a iv => a.set iv.1 iv.2) (nums ++ sufijo)
        = vs ++ sufijo := by
  induction n with
  | zero =>
    intro nums vs sufijo hn hv
    simp [List.length_eq_zero.mp hn, List.length_eq_zero.mp hv]
  | succ n ih =>
    intro nums vs sufijo hn hv
    obtain ⟨ms, m, rfl⟩ : ∃ ms m, nums = ms ++ [m] :=
      ⟨nums.dropLast, nums.getLast (by intro h; simp [h] at hn),
        (List.dropLast_append_getLast _).symm⟩
    obtain ⟨ws, w, rfl⟩ : ∃ ws w, vs = ws ++ [w] :=
      ⟨vs.dropLast, vs.getLast (by intro h; simp [h] at hv),
        (List.dropLast_append_getLast _).symm⟩
    have hms : ms.length = n := by simpa using hn
    have hws : ws.length = n := by simpa using hv
    rw [List.range_succ, List.zip_append (by simp [hws]), List.foldl_append,
      List.append_assoc, ih ms ws ([m] ++ sufijo) hms hws]
    simp [← hws]

/-- C24: whatever the array held before and whatever is typed, what
`main` of `mayorMenorEnArreglo.cpp` prints after the ten prompts is a `mayor`
that is an element of the array read and is greater than or equal to every
element of it, and a `menor` that is an element of the array read and is less
than or equal to every element of it. When ten lines holding one integer each
are typed, the array read is these ten integers in order. -/
theorem mayor_y_menor (indeterminado : List Int) (cin : Cin)
    (hlen : indeterminado.length = 10) :
    (∃ menor mayor : Int,
      main indeterminado cin
        = (0, List.replicate 10 (Emision.literal "Ingresa un número: \n") ++
            [.literal "El número mayor es ", .entero mayor,
              .literal " y el numero menor es ", .entero menor, .literal "."]) ∧
      mayor ∈ (leerNums (List.range 10) cin indeterminado []).2.1 ∧
      (∀ x ∈ (leerNums (List.range 10) cin indeterminado []).2.1, x ≤ mayor) ∧
      menor ∈ (leerNums (List.range 10) cin indeterminado []).2.1 ∧
      (∀ x ∈ (leerNums (List.range 10) cin indeterminado []).2.1, menor ≤ x)) ∧
    (∀ (entradas : List Texto) (vs : List Int) (resto : Texto),
      entradas.length = 10 → List.Forall₂ EnteroEnLinea entradas vs →
      (leerNums (List.range 10)
        ⟨entradas.flatMap (fun e => e ++ ['\n']) ++ resto, false, false⟩
        indeterminado []).2.1 = vs) := by
  constructor
  · have hl : (leerNums (List.range 10) cin indeterminado []).2.1.length = 10 := by
      rw [leerNums_length, hlen]
    generalize hnums : (leerNums (List.range 10) cin indeterminado []).2.1 = nums at hl
    obtain ⟨h1, h2, h3, h4, h5⟩ :=
      menorMayor_cotas nums (List.range' 1 9) (nums.getD 0 0, nums.getD 0 0)
    simp only at h1 h2 h4 h5
    refine ⟨(menorMayor nums (List.range' 1 9) (nums.getD 0 0, nums.getD 0 0)).1,
      (menorMayor nums (List.range' 1 9) (nums.getD 0 0, nums.getD 0 0)).2, ?_, ?_, ?_, ?_, ?_⟩
    · simp only [main, hnums, leerNums_salida]
      simp
    · rcases h5 with h | ⟨j, hj, h⟩
      · rw [h]; exact getD_mem nums 0 (by omega)
      · rw [h]
        have := List.mem_range'_1.mp hj
        exact getD_mem nums j (by omega)
    · intro x hx
      obtain ⟨i, hi, rfl⟩ := mem_getD nums x hx
      by_cases h0 : i = 0
      · subst h0; exact h2
      · exact (h3 i (List.mem_range'_1.mpr (by omega))).2
    · rcases h4 with h | ⟨j, hj, h⟩
      · rw [h]; exact getD_mem nums 0 (by omega)
      · rw [h]
        have := List.mem_range'_1.mp hj
        exact getD_mem nums j (by omega)
    · intro x hx
      obtain ⟨i, hi, rfl⟩ := mem_getD nums x hx
      by_cases h0 : i = 0
      · subst h0; exact h1
      · exact (h3 i (List.mem_range'_1.mpr (by omega))).1
  · intro entradas vs resto hn hvs
    rw [leerNums_entradas resto entradas vs hvs (List.range 10) (by simp [hn]) _ _ _ rfl]
    have := foldl_set_range 10 indeterminado vs [] hlen (by rw [← hvs.length_eq, hn])
    simpa using this

/-- The ten entries 3, -1, 7, 7, 0, 12, 5, -9, 4, 2: they are the array read,
the greatest is 12 and the smallest -9. -/
theorem mayor_y_menor_witness :
    (List.replicate 10 (0 : Int)).length = 10 ∧
    List.Forall₂ EnteroEnLinea entradasDiez [3, -1, 7, 7, 0, 12, 5, -9, 4, 2] ∧
    (leerNums (List.range 10)
      ⟨entradasDiez.flatMap (fun e => e ++ ['\n']) ++ [], false, false⟩
      (List.replicate 10 0) []).2.1 = [3, -1, 7, 7, 0, 12, 5, -9, 4, 2] ∧
    main (List.replicate 10 0)
        ⟨entradasDiez.flatMap (fun e => e ++ ['\n']) ++ [], false, false⟩
      = (0, List.replicate 10 (Emision.literal "Ingresa un número: \n") ++
          [.literal "El número mayor es ", .entero 12,
            .literal " y el numero menor es ", .entero (-9), .literal "."]) :=
  have hvs : List.Forall₂ EnteroEnLinea entradasDiez [3, -1, 7, 7, 0, 12, 5, -9, 4, 2] := by
    repeat first
      | exact List.Forall₂.nil
      | refine List.Forall₂.cons (by unfold EnteroEnLinea; decide) ?_
  ⟨rfl, hvs,
    (mayor_y_menor (List.replicate 10 0)
      ⟨entradasDiez.flatMap (fun e => e ++ ['\n']) ++ [], false, false⟩ rfl).2
      entradasDiez _ [] rfl hvs,
    by decide⟩

end MayorMenorEnArreglo

/-! ## Theorems about inventarioDeProductos.cpp -/

namespace InventarioDeProductos

open RegistroDeComponentes

/-- C25: the user types `Manzana` as the name of the first of five products
and then asks for `Manzana`. The `std::cin.ignore()` that comes before the
first `std::getline` removes the `M`, the product is stored as `anzana`, and
the only thing `main` of `inventarioDeProductos.cpp` prints after the prompt
of the query is that no product was found. -/
theorem primer_nombre_recortado :
    (capturar muestra (List.range 5) cinInventario sinIniciar []).2.1.map productos.producto
      = ["anzana", "Pera", "Uva", "Kiwi", "Coco"].map String.toList ∧
    (getline (capturar muestra (List.range 5) cinInventario sinIniciar []).1.ignore []).1
      = "Manzana".toList ∧
    (main muestra sinIniciar cinInventario).2.drop 30
      = [.literal "Ingresa el producto que deseas buscar: ",
          .literal "No se encontró ningún producto con ese nombre."] := by
  decide

end InventarioDeProductos
